import Mathlib

/-!
Verification of the Ashvattha autonomous genealogy discovery engine.

Shallow embedding of the relational store (persons, relationships, sources,
agent queue, merge log) and of the operations of the three agents:

- ResearchAgent (src/research_agent.py): find-or-create identity resolution,
  parent/child edge upserts, the no-discovery failure path of tick with its
  delayed genesis assignment, and the queue refill policy.
- GenesisAgent (src/agent.py): the older variant of the same writer with
  primary-edge demotion, eager genesis assignment on creation, seeding and
  its own refill policy.
- CategoryAgent (src/category_agent.py): the genesis-flag repair job.

SQL statements are modelled over lists: SELECT ... LIMIT 1 is List.find?,
COUNT is List.countP, UPDATE is List.map guarded by the WHERE condition and
INSERT ... RETURNING id is an append using a monotone id counter.  Confidence
scores are rationals; the float arithmetic in the source (adding a small
integer offset, clamping with min at 99.0, comparisons) is exact on these
values.  The schema file is not under src/; column defaults used below
(queue status pending, attempts 0, relationship is_branch false) are the
values the agent code relies on when reading rows back.
-/

/-- A row of the persons table. -/
structure Person where
  id : Nat
  name : String
  ptype : String
  wikidata_id : Option String
  approx_birth_year : Option Int
  is_genesis : Bool
  genesis_code : Option String
  agent_researched : Bool
deriving Repr, DecidableEq

/-- A row of the relationships table: a directed child-to-parent edge. -/
structure Relationship where
  id : Nat
  child_id : Nat
  parent_id : Nat
  parent_type : String
  confidence : Rat
  is_primary : Bool
  is_branch : Bool
deriving Repr, DecidableEq

/-- A row of the sources table: provenance attached to a relationship. -/
structure SourceRow where
  relationship_id : Nat
  url : String
  source_type : String
deriving Repr, DecidableEq

/-- A row of the agent_queue table. -/
structure QueueJob where
  id : Nat
  person_id : Nat
  direction : String
  priority : Int
  status : String
  attempts : Nat
  created_at : Nat
deriving Repr, DecidableEq

/-- A row of the merge_log table, recording one genesis dissolution. -/
structure MergeLogRow where
  genesis_person_id : Nat
  genesis_code : Option String
  merged_into_person_id : Nat
  confidence_at_merge : Rat
deriving Repr, DecidableEq

/-- A row of the agent_log table. -/
structure LogRow where
  person_id : Nat
  action : String
  detail : String
deriving Repr, DecidableEq

/-- The relational store shared by all agents, with monotone id counters for
the serial primary keys. -/
structure DB where
  persons : List Person
  relationships : List Relationship
  sources : List SourceRow
  queue : List QueueJob
  merge_log : List MergeLogRow
  logs : List LogRow
  next_person_id : Nat
  next_rel_id : Nat
  next_job_id : Nat
deriving Repr, DecidableEq

/-- ASCII lowercasing of a string, character by character. -/
def lowerStr (a : String) : List Char := a.data.map Char.toLower

/-- Case-insensitive name equality, as in LOWER(name)=LOWER(:n). -/
def lowEq (a b : String) : Bool := lowerStr a == lowerStr b

/-- SELECT * FROM persons WHERE id=:id LIMIT 1. -/
def findPerson (db : DB) (i : Nat) : Option Person :=
  db.persons.find? (fun p => p.id == i)

/-- SELECT COUNT(*) FROM persons WHERE is_genesis=TRUE. -/
def genesisCount (db : DB) : Nat := db.persons.countP (fun p => p.is_genesis)

/-- UPDATE persons SET wikidata_id=:w WHERE id=:id. -/
def updatePersonWikidata (i : Nat) (w : String) (db : DB) : DB :=
  { db with
      persons := db.persons.map
        (fun p => if p.id == i then { p with wikidata_id := some w } else p) }

/-- UPDATE persons SET approx_birth_year=:y WHERE id=:id. -/
def updatePersonBirthYear (i : Nat) (y : Int) (db : DB) : DB :=
  { db with
      persons := db.persons.map
        (fun p => if p.id == i then { p with approx_birth_year := some y } else p) }

/-- Field update applied by genesis assignment. -/
def setG (gc : String) (p : Person) : Person :=
  { p with is_genesis := true, genesis_code := some gc }

/-- Field update applied by genesis dissolution. -/
def clearG (p : Person) : Person :=
  { p with is_genesis := false, genesis_code := none }

/-- UPDATE persons SET is_genesis=TRUE, genesis_code=:gc WHERE id=:id. -/
def setGenesis (i : Nat) (gc : String) (db : DB) : DB :=
  { db with persons := db.persons.map (fun p => if p.id == i then setG gc p else p) }

/-- UPDATE persons SET is_genesis=FALSE, genesis_code=NULL WHERE id=:id. -/
def clearGenesis (i : Nat) (db : DB) : DB :=
  { db with persons := db.persons.map (fun p => if p.id == i then clearG p else p) }

/-- UPDATE persons SET agent_researched=TRUE WHERE id=:id. -/
def setResearched (i : Nat) (db : DB) : DB :=
  { db with
      persons := db.persons.map
        (fun p => if p.id == i then { p with agent_researched := true } else p) }

/-- SELECT id FROM relationships WHERE child_id=:c AND parent_type=:t AND is_primary=TRUE. -/
def findPrimary (db : DB) (c : Nat) (t : String) : Option Relationship :=
  db.relationships.find?
    (fun r => r.child_id == c && r.parent_type == t && r.is_primary)

/-- SELECT id FROM relationships WHERE child_id=:c AND parent_id=:p AND parent_type=:t. -/
def findRel (db : DB) (c p : Nat) (t : String) : Option Relationship :=
  db.relationships.find?
    (fun r => r.child_id == c && r.parent_id == p && r.parent_type == t)

/-- UPDATE relationships SET confidence=:conf WHERE id=:id. -/
def updateRelConfidence (rid : Nat) (conf : Rat) (db : DB) : DB :=
  { db with
      relationships := db.relationships.map
        (fun r => if r.id == rid then { r with confidence := conf } else r) }

/-- UPDATE relationships SET is_primary=FALSE, is_branch=TRUE WHERE id=:id. -/
def demoteRel (rid : Nat) (db : DB) : DB :=
  { db with
      relationships := db.relationships.map
        (fun r => if r.id == rid then { r with is_primary := false, is_branch := true } else r) }

/-- INSERT INTO relationships (child_id,parent_id,parent_type,confidence,is_primary,is_branch)
RETURNING id. -/
def insertRel (c p : Nat) (t : String) (conf : Rat) (prim branch : Bool) (db : DB) :
    Nat × DB :=
  (db.next_rel_id,
   { db with
       relationships := db.relationships ++
         [{ id := db.next_rel_id, child_id := c, parent_id := p, parent_type := t,
            confidence := conf, is_primary := prim, is_branch := branch }],
       next_rel_id := db.next_rel_id + 1 })

/-- INSERT INTO sources after the duplicate check on (relationship_id, url). -/
def addSourceDedup (rid : Nat) (u stype : String) (db : DB) : DB :=
  if db.sources.countP (fun s => s.relationship_id == rid && s.url == u) == 0 then
    { db with sources := db.sources ++ [{ relationship_id := rid, url := u, source_type := stype }] }
  else db

/-- INSERT INTO sources without a duplicate check (used on freshly inserted rows). -/
def addSource (rid : Nat) (u stype : String) (db : DB) : DB :=
  { db with sources := db.sources ++ [{ relationship_id := rid, url := u, source_type := stype }] }

/-- INSERT INTO agent_queue (person_id,direction,priority): status defaults to
pending, attempts to 0; created_at shares the monotone job counter. -/
def enqueueJob (pid : Nat) (prio : Int) (db : DB) : DB :=
  { db with
      queue := db.queue ++
        [{ id := db.next_job_id, person_id := pid, direction := "both", priority := prio,
           status := "pending", attempts := 0, created_at := db.next_job_id }],
      next_job_id := db.next_job_id + 1 }

/-- SELECT COUNT(*) FROM agent_queue WHERE person_id=:p AND status=pending, read as a test. -/
def hasPendingJob (pid : Nat) (db : DB) : Bool :=
  db.queue.any (fun j => j.person_id == pid && j.status == "pending")

/-- The check-then-insert enqueue used by both agents after linking a node. -/
def enqueueIfNoPending (pid : Nat) (prio : Int) (db : DB) : DB :=
  if hasPendingJob pid db then db else enqueueJob pid prio db

/-- UPDATE agent_queue SET status=:s WHERE id=:id. -/
def markJob (jid : Nat) (st : String) (db : DB) : DB :=
  { db with
      queue := db.queue.map
        (fun j => if j.id == jid then { j with status := st } else j) }

/-- UPDATE agent_queue SET status=:s, attempts=:a WHERE id=:id. -/
def setJobStatusAttempts (jid : Nat) (st : String) (a : Nat) (db : DB) : DB :=
  { db with
      queue := db.queue.map
        (fun j => if j.id == jid then { j with status := st, attempts := a } else j) }

/-- SELECT COUNT(*) FROM relationships WHERE child_id=:id AND parent_type=father. -/
def fatherEdgeCount (pid : Nat) (db : DB) : Nat :=
  db.relationships.countP (fun r => r.child_id == pid && r.parent_type == "father")

/-- SELECT COUNT(*) FROM agent_queue WHERE status=failed. -/
def failedCount (db : DB) : Nat := db.queue.countP (fun j => j.status == "failed")

/-- SELECT COUNT(*) FROM agent_queue WHERE status=pending. -/
def pendingCount (db : DB) : Nat := db.queue.countP (fun j => j.status == "pending")

/-- UPDATE agent_queue SET status=pending, attempts=0 WHERE status=failed. -/
def resetFailed (db : DB) : DB :=
  { db with
      queue := db.queue.map
        (fun j => if j.status == "failed" then { j with status := "pending", attempts := 0 } else j) }

/-- Substring test, used to classify a source url. -/
def containsSub (s pat : String) : Bool := (s.splitOn pat).length > 1

/-- Dissolution of genesis status inside the parent-edge upsert, shared verbatim
by ResearchAgent linkParent (research_agent.py lines 403-415) and
GenesisAgent link_parent (agent.py lines 711-722): when the incoming claim has
confidence at least 95 and the child is flagged genesis, the flag and code are
cleared and one merge_log row is appended with the prior code. -/
def dissolveGenesisIfHigh (child_id parent_id : Nat) (conf : Rat) (db : DB) : DB :=
  if 95 ≤ conf then
    match findPerson db child_id with
    | some child =>
        if child.is_genesis then
          let dbA := clearGenesis child_id db
          { dbA with merge_log := dbA.merge_log ++
              [{ genesis_person_id := child_id, genesis_code := child.genesis_code,
                 merged_into_person_id := parent_id, confidence_at_merge := conf }] }
        else db
    | none => db
  else db

/-- A father, mother or child candidate inside a discovery record. -/
structure Candidate where
  name : String
  wikidata_id : Option String
  confidence : Rat
deriving Repr, DecidableEq

/-- A consolidated discovery record (the merged dict in both agents). -/
structure Discovery where
  father : Option Candidate
  mother : Option Candidate
  children : List Candidate
  birth_year : Option Int
  source_url : Option String
  auto_categories : List String
  wikidata_id : Option String
deriving Repr, DecidableEq

/-- Offset adjustment with the 99 clamp applied to an incoming candidate. -/
def adjust (c : Candidate) (off : Rat) : Candidate :=
  { c with confidence := min 99 (c.confidence + off) }

/-- Father and mother folding rule of the merge engine: the incoming candidate
is offset-adjusted and replaces the accumulator only when the slot is empty or
its adjusted confidence is strictly greater. -/
def mergeParent (t s : Option Candidate) (off : Rat) : Option Candidate :=
  match s with
  | none => t
  | some f =>
      let f2 := adjust f off
      match t with
      | none => some f2
      | some g => if g.confidence < f2.confidence then some f2 else some g

/-- Children folding rule: case-insensitive dedup by name, new names appended
with adjusted confidence, existing names kept. -/
def mergeChildren (t src : List Candidate) (off : Rat) : List Candidate :=
  src.foldl
    (fun acc c =>
      let c2 := adjust c off
      if acc.any (fun e => e.name.toLower == c2.name.toLower) then acc else acc ++ [c2])
    t

/-- The merge engine, embedding the module-level helper in research_agent.py
(lines 503-529) whose body is line for line the same as
GenesisAgent merge_into in agent.py (lines 286-326): father and mother by the
strict-improvement rule, children deduplicated, birth year, source url and
wikidata id first-write-wins, categories unioned in order. -/
def mergeDiscovery (target source : Discovery) (off : Rat) : Discovery :=
  { father := mergeParent target.father source.father off,
    mother := mergeParent target.mother source.mother off,
    children := mergeChildren target.children source.children off,
    birth_year := match target.birth_year with
      | some y => some y
      | none => source.birth_year,
    source_url := match target.source_url with
      | some u => some u
      | none => source.source_url,
    auto_categories := source.auto_categories.foldl
      (fun acc c => if acc.contains c then acc else acc ++ [c]) target.auto_categories,
    wikidata_id := match target.wikidata_id with
      | some w => some w
      | none => source.wikidata_id }

namespace ResearchAgent

/-- The static expansion seed list of research_agent.py (lines 20-44). -/
def EXPANSION_SEEDS : List (String × String) :=
  [("Noah","human"), ("Isaac","human"), ("Jacob","human"),
   ("Moses","human"), ("King David","human"), ("Solomon","human"),
   ("Cronus","mythological"), ("Uranus","mythological"),
   ("Heracles","mythological"), ("Apollo","mythological"),
   ("Achilles","human"), ("Odysseus","human"),
   ("Thor","mythological"), ("Loki","mythological"),
   ("Ra","mythological"), ("Horus","mythological"),
   ("Cyrus the Great","human"), ("Darius I","human"),
   ("Tutankhamun","human"), ("Cleopatra","human"),
   ("Ashoka","human"), ("Chandragupta Maurya","human"),
   ("Attila the Hun","human"), ("Saladin","human"),
   ("Suleiman the Magnificent","human"), ("Akbar","human"),
   ("William the Conqueror","human"), ("Henry VIII","human"),
   ("Louis XIV","human"), ("Napoleon Bonaparte","human"),
   ("Peter the Great","human"), ("Qin Shi Huang","human"),
   ("Kublai Khan","human"), ("Krishna","mythological"),
   ("Rama","mythological"), ("Vishnu","mythological"),
   ("Romulus","human"), ("Aeneas","human"),
   ("Henry II of England","human"), ("Edward I of England","human"),
   ("Vlad the Impaler","human"), ("Ivan the Terrible","human"),
   ("Moctezuma II","human"), ("Pachacuti","human"),
   ("Emperor Meiji","human"), ("Babur","human"),
   ("Timur","human"), ("Hammurabi","human")]

/-- MAX_ATTEMPTS in research_agent.py. -/
def MAX_ATTEMPTS : Nat := 5

/-- ResearchAgent find_or_create (research_agent.py lines 452-469): lookup by
wikidata id, then case-insensitive name match (backfilling the wikidata id),
else insert a new person with is_genesis FALSE and genesis_code NULL. -/
def findOrCreate (name : String) (wid : Option String) (db : DB) : Option Nat × DB :=
  match wid.bind (fun w => db.persons.find? (fun p => p.wikidata_id == some w)) with
  | some p => (some p.id, db)
  | none =>
      match db.persons.find? (fun p => lowEq p.name name) with
      | some p =>
          (some p.id,
           match wid with
           | some w => updatePersonWikidata p.id w db
           | none => db)
      | none =>
          (some db.next_person_id,
           { db with
               persons := db.persons ++
                 [{ id := db.next_person_id, name := name, ptype := "human",
                    wikidata_id := wid, approx_birth_year := none,
                    is_genesis := false, genesis_code := none, agent_researched := false }],
               next_person_id := db.next_person_id + 1 })

/-- Source-type tag for a url in ResearchAgent link_parent. -/
def srcType (u : String) : String :=
  if containsSub u "wikidata" then "wikidata"
  else if containsSub u "dbpedia" then "dbpedia"
  else "wikipedia"

/-- The try-block of ResearchAgent link_parent (research_agent.py lines
378-422) with the is_primary value already decided: an existing
(child,parent,type) row only has its confidence updated, otherwise the row is
inserted with the given primary flag; then deduplicated source attach, genesis
dissolution at confidence 95 and the follow-up enqueue of the parent at
priority 75. -/
def linkParentUpsert (child_id parent_id : Nat) (pd : Candidate) (parent_type : String)
    (source_url : Option String) (prim : Bool) (db : DB) : DB :=
  let upd :=
    match findRel db child_id parent_id parent_type with
    | some e => (e.id, updateRelConfidence e.id pd.confidence db)
    | none => insertRel child_id parent_id parent_type pd.confidence prim (!prim) db
  let db3 :=
    match source_url with
    | some u => addSourceDedup upd.1 u (srcType u) upd.2
    | none => upd.2
  let db4 := dissolveGenesisIfHigh child_id parent_id pd.confidence db3
  enqueueIfNoPending parent_id 75 db4

/-- Body of ResearchAgent link_parent (research_agent.py lines 370-424) after
identity resolution: no demotion logic; the new edge is primary exactly when no
primary of that type exists. -/
def linkParentResolved (child_id parent_id : Nat) (pd : Candidate) (parent_type : String)
    (source_url : Option String) (db1 : DB) : DB :=
  if parent_id == child_id then db1 else
  linkParentUpsert child_id parent_id pd parent_type source_url
    (findPrimary db1 child_id parent_type).isNone db1

/-- ResearchAgent link_parent: resolve the parent, bail out on a missing or
self-referential resolution, else upsert. -/
def linkParent (child_id : Nat) (pd : Candidate) (parent_type : String)
    (source_url : Option String) (db : DB) : DB :=
  let res := findOrCreate pd.name pd.wikidata_id db
  match res.1 with
  | none => res.2
  | some parent_id => linkParentResolved child_id parent_id pd parent_type source_url res.2

/-- Body of ResearchAgent link_child (research_agent.py lines 426-450) after
identity resolution: if the exact (child,parent,father) row is absent, insert
it with is_primary TRUE (is_branch left at its schema default false) and attach
the source as wikipedia, then enqueue the child at priority 55.  An existing
row is left untouched. -/
def linkChildResolved (parent_id child_id : Nat) (cd : Candidate)
    (source_url : Option String) (db1 : DB) : DB :=
  if child_id == parent_id then db1 else
  let db3 :=
    match findRel db1 child_id parent_id "father" with
    | some _ => db1
    | none =>
        let upd := insertRel child_id parent_id "father" cd.confidence true false db1
        match source_url with
        | some u => addSource upd.1 u "wikipedia" upd.2
        | none => upd.2
  enqueueIfNoPending child_id 55 db3

/-- ResearchAgent link_child. -/
def linkChild (parent_id : Nat) (cd : Candidate) (source_url : Option String)
    (db : DB) : DB :=
  let res := findOrCreate cd.name cd.wikidata_id db
  match res.1 with
  | none => res.2
  | some child_id => linkChildResolved parent_id child_id cd source_url res.2

/-- Scalar updates at the top of the save step (research_agent.py lines
352-358 and agent.py lines 641-647 are identical). -/
def saveScalars (pid : Nat) (wid : Option String) (byear : Option Int) (db : DB) : DB :=
  let db1 := match wid with
    | some w => updatePersonWikidata pid w db
    | none => db
  match byear with
  | some y => updatePersonBirthYear pid y db1
  | none => db1

/-- The genesis-assignment check of the failed branch of ResearchAgent tick
(research_agent.py lines 97-110): when the subject has no father edge and is
not already genesis, it is assigned the next sequential genesis code computed
from the current count of genesis-flagged persons. -/
def failGenesisCheck (pid : Nat) (db1 : DB) : DB :=
  if fatherEdgeCount pid db1 == 0 then
    match findPerson db1 pid with
    | some p =>
        if p.is_genesis then db1
        else setGenesis pid ("G" ++ toString (genesisCount db1 + 1)) db1
    | none => db1
  else db1

/-- The no-discovery branch of ResearchAgent tick (research_agent.py lines
92-115): increment attempts; below the cap the job returns to pending with the
new count; at the cap the job is marked failed and the genesis-assignment
check runs. -/
def tickNoDiscovery (jid pid prevAttempts : Nat) (db : DB) : DB :=
  if MAX_ATTEMPTS ≤ prevAttempts + 1 then
    failGenesisCheck pid (setJobStatusAttempts jid "failed" (prevAttempts + 1) db)
  else setJobStatusAttempts jid "pending" (prevAttempts + 1) db

/-- ResearchAgent refill_queue (research_agent.py lines 119-163) together with
the in-memory expansion index: reset failed jobs and stop; else consume the
next expansion seed (create the person as non-genesis when absent, enqueue at
priority 85 with the idempotence check for an existing person); else enqueue up
to 20 unresearched persons at priority 30; else reset the index to zero. -/
def refillQueue (db : DB) (expansion_index : Nat) : DB × Nat :=
  if 0 < failedCount db then (resetFailed db, expansion_index)
  else if expansion_index < EXPANSION_SEEDS.length then
    let seed := EXPANSION_SEEDS.getD expansion_index ("", "")
    let idx := expansion_index + 1
    match db.persons.find? (fun p => lowEq p.name seed.1) with
    | none =>
        let pid := db.next_person_id
        let db1 :=
          { db with
              persons := db.persons ++
                [{ id := pid, name := seed.1, ptype := seed.2, wikidata_id := none,
                   approx_birth_year := none, is_genesis := false, genesis_code := none,
                   agent_researched := false }],
              next_person_id := pid + 1 }
        (enqueueJob pid 85 db1, idx)
    | some p => (if hasPendingJob p.id db then db else enqueueJob p.id 85 db, idx)
  else
    let unres := (db.persons.filter (fun p => !p.agent_researched && p.ptype != "genesis")).take 20
    if unres.isEmpty then (db, 0)
    else (unres.foldl (fun acc p => enqueueIfNoPending p.id 30 acc) db, expansion_index)

end ResearchAgent

namespace GenesisAgent

/-- The startup seed list of agent.py (lines 51-58). -/
def SEEDS : List (String × String) :=
  [("Zeus","mythological"), ("Adam","human"), ("Abraham","human"),
   ("Ramesses II","human"), ("Alexander the Great","human"),
   ("Julius Caesar","human"), ("Genghis Khan","human"),
   ("Charlemagne","human"), ("Odin","mythological"),
   ("Brahma","mythological"), ("Osiris","mythological"),
   ("Muhammad","human")]

/-- The expansion seed list of agent.py (lines 60-99). -/
def EXPANSION_SEEDS : List (String × String) :=
  [("Noah","human"), ("Isaac","human"), ("Jacob","human"),
   ("Joseph son of Jacob","human"), ("Moses","human"),
   ("King David","human"), ("Solomon","human"),
   ("Cronus","mythological"), ("Uranus","mythological"),
   ("Heracles","mythological"), ("Apollo","mythological"),
   ("Achilles","human"), ("Odysseus","human"), ("Aeneas","human"),
   ("Brahma","mythological"), ("Vishnu","mythological"),
   ("Krishna","mythological"), ("Rama","mythological"),
   ("Manu","mythological"),
   ("Thor","mythological"), ("Loki","mythological"),
   ("Freyr","mythological"), ("Baldr","mythological"),
   ("Ra","mythological"), ("Horus","mythological"),
   ("Set","mythological"), ("Thoth","mythological"),
   ("Cyrus the Great","human"), ("Darius I","human"),
   ("Tutankhamun","human"), ("Cleopatra","human"),
   ("Ashoka","human"), ("Chandragupta Maurya","human"),
   ("Attila the Hun","human"), ("Saladin","human"),
   ("Suleiman the Magnificent","human"), ("Akbar","human"),
   ("Timur","human"), ("Babur","human"),
   ("William the Conqueror","human"), ("Henry II of England","human"),
   ("Henry VIII","human"), ("Queen Elizabeth I","human"),
   ("Louis XIV","human"), ("Napoleon Bonaparte","human"),
   ("Frederick the Great","human"), ("Peter the Great","human"),
   ("Ivan the Terrible","human"), ("Vlad the Impaler","human"),
   ("Qin Shi Huang","human"), ("Kublai Khan","human"),
   ("Emperor Meiji","human"),
   ("Moctezuma II","human"), ("Pachacuti","human"),
   ("Romulus","human"), ("Remus","human")]

/-- GenesisAgent find_or_create (agent.py lines 768-793): lookup by wikidata
id, then case-insensitive name match (backfilling the id), else insert a new
person with is_genesis TRUE and a fresh sequential genesis code, logging the
creation. -/
def findOrCreate (name : String) (wid : Option String) (db : DB) : Option Nat × DB :=
  match wid.bind (fun w => db.persons.find? (fun p => p.wikidata_id == some w)) with
  | some p => (some p.id, db)
  | none =>
      match db.persons.find? (fun p => lowEq p.name name) with
      | some p =>
          (some p.id,
           match wid with
           | some w => updatePersonWikidata p.id w db
           | none => db)
      | none =>
          (some db.next_person_id,
           { db with
               persons := db.persons ++
                 [{ id := db.next_person_id, name := name, ptype := "human", wikidata_id := wid,
                    approx_birth_year := none, is_genesis := true,
                    genesis_code := some ("G" ++ toString (genesisCount db + 1)),
                    agent_researched := false }],
               logs := db.logs ++ [{ person_id := db.next_person_id, action := "discovered",
                                     detail := "Discovered by agent" }],
               next_person_id := db.next_person_id + 1 })

/-- Source-type tag for a url in GenesisAgent link_parent. -/
def srcType (u : String) : String :=
  if containsSub u "wikidata" then "wikidata"
  else if containsSub u "dbpedia" then "dbpedia"
  else if containsSub u "wikisource" then "wikisource"
  else "wikipedia"

/-- The try-block of GenesisAgent link_parent (agent.py lines 683-730) with the
is_primary value already decided: an existing (child,parent,type) row only has
its confidence updated, otherwise the row is inserted with the given primary
flag; then deduplicated source attach, genesis dissolution at confidence 95 and
the follow-up enqueue of the parent at priority 75. -/
def linkParentUpsert (child_id parent_id : Nat) (pd : Candidate) (parent_type : String)
    (source_url : Option String) (prim : Bool) (db : DB) : DB :=
  let upd :=
    match findRel db child_id parent_id parent_type with
    | some e => (e.id, updateRelConfidence e.id pd.confidence db)
    | none => insertRel child_id parent_id parent_type pd.confidence prim (!prim) db
  let db3 :=
    match source_url with
    | some u => addSourceDedup upd.1 u (srcType u) upd.2
    | none => upd.2
  let db4 := dissolveGenesisIfHigh child_id parent_id pd.confidence db3
  enqueueIfNoPending parent_id 75 db4

/-- Body of GenesisAgent link_parent (agent.py lines 670-732) after identity
resolution: when a primary edge of the type exists and the incoming confidence
is strictly higher, that edge is demoted to branch and the upsert proceeds with
is_primary TRUE; otherwise the upsert is primary exactly when no primary
existed. -/
def linkParentResolved (child_id parent_id : Nat) (pd : Candidate) (parent_type : String)
    (source_url : Option String) (db1 : DB) : DB :=
  if parent_id == child_id then db1 else
  match findPrimary db1 child_id parent_type with
  | none => linkParentUpsert child_id parent_id pd parent_type source_url true db1
  | some e =>
      if e.confidence < pd.confidence then
        linkParentUpsert child_id parent_id pd parent_type source_url true (demoteRel e.id db1)
      else
        linkParentUpsert child_id parent_id pd parent_type source_url false db1

/-- GenesisAgent link_parent. -/
def linkParent (child_id : Nat) (pd : Candidate) (parent_type : String)
    (source_url : Option String) (db : DB) : DB :=
  let res := findOrCreate pd.name pd.wikidata_id db
  match res.1 with
  | none => res.2
  | some parent_id => linkParentResolved child_id parent_id pd parent_type source_url res.2

/-- Body of GenesisAgent link_child (agent.py lines 734-766) after identity
resolution: an existing (child,parent,father) row has its confidence updated,
otherwise the row is inserted with is_primary TRUE unconditionally; source
attach is deduplicated and tagged wikipedia; the child is enqueued at
priority 55. -/
def linkChildResolved (parent_id child_id : Nat) (cd : Candidate)
    (source_url : Option String) (db1 : DB) : DB :=
  if child_id == parent_id then db1 else
  let upd :=
    match findRel db1 child_id parent_id "father" with
    | some e => (e.id, updateRelConfidence e.id cd.confidence db1)
    | none => insertRel child_id parent_id "father" cd.confidence true false db1
  let db3 :=
    match source_url with
    | some u => addSourceDedup upd.1 u "wikipedia" upd.2
    | none => upd.2
  enqueueIfNoPending child_id 55 db3

/-- GenesisAgent link_child. -/
def linkChild (parent_id : Nat) (cd : Candidate) (source_url : Option String)
    (db : DB) : DB :=
  let res := findOrCreate cd.name cd.wikidata_id db
  match res.1 with
  | none => res.2
  | some child_id => linkChildResolved parent_id child_id cd source_url res.2

/-- One seed of GenesisAgent seed_initial_persons (agent.py lines 177-189):
absent names are created as genesis with a fresh sequential code and enqueued
at priority 90. -/
def seedOne (db : DB) (seed : String × String) : DB :=
  match db.persons.find? (fun p => lowEq p.name seed.1) with
  | some _ => db
  | none =>
      let gc := "G" ++ toString (genesisCount db + 1)
      let pid := db.next_person_id
      let db1 :=
        { db with
            persons := db.persons ++
              [{ id := pid, name := seed.1, ptype := seed.2, wikidata_id := none,
                 approx_birth_year := none, is_genesis := true, genesis_code := some gc,
                 agent_researched := false }],
            next_person_id := pid + 1 }
      enqueueJob pid 90 db1

/-- GenesisAgent seed_initial_persons. -/
def seedInitialPersons (db : DB) : DB := SEEDS.foldl seedOne db

/-- GenesisAgent refill_queue (agent.py lines 140-175): reset failed jobs and
stop; else consume the next expansion seed (creating absent persons as genesis
with a fresh code, enqueueing at priority 85 without an idempotence check for
existing persons); else enqueue up to 20 unresearched persons at priority 30;
else reset the index to zero. -/
def refillQueue (db : DB) (expansion_index : Nat) : DB × Nat :=
  if 0 < failedCount db then (resetFailed db, expansion_index)
  else if expansion_index < EXPANSION_SEEDS.length then
    let seed := EXPANSION_SEEDS.getD expansion_index ("", "")
    let idx := expansion_index + 1
    match db.persons.find? (fun p => lowEq p.name seed.1) with
    | none =>
        let gc := "G" ++ toString (genesisCount db + 1)
        let pid := db.next_person_id
        let db1 :=
          { db with
              persons := db.persons ++
                [{ id := pid, name := seed.1, ptype := seed.2, wikidata_id := none,
                   approx_birth_year := none, is_genesis := true, genesis_code := some gc,
                   agent_researched := false }],
              next_person_id := pid + 1 }
        (enqueueJob pid 85 db1, idx)
    | some p => (enqueueJob p.id 85 db, idx)
  else
    let unres := (db.persons.filter (fun p => !p.agent_researched && p.ptype != "genesis")).take 20
    if unres.isEmpty then (db, 0)
    else (unres.foldl (fun acc p => enqueueJob p.id 30 acc) db, expansion_index)

end GenesisAgent

namespace CategoryAgent

/-- The father-edge existence test of the repair query. -/
def hasFatherEdge (pid : Nat) (db : DB) : Bool :=
  db.relationships.any (fun r => r.child_id == pid && r.parent_type == "father")

/-- CategoryAgent fix_wrong_genesis (category_agent.py lines 202-230): clear
the genesis flag and code of up to 20 persons flagged genesis that do have a
father edge, logging each fix. -/
def fixWrongGenesis (db : DB) : DB :=
  let wrong := (db.persons.filter
    (fun p => p.is_genesis && p.ptype != "genesis" && hasFatherEdge p.id db)).take 20
  wrong.foldl
    (fun acc p =>
      let acc1 := clearGenesis p.id acc
      { acc1 with logs := acc1.logs ++
          [{ person_id := p.id, action := "fixed",
             detail := "Removed incorrect genesis flag" }] })
    db

end CategoryAgent

/-- Whole-system state: the shared store plus the expansion index held in
process memory by a scheduler instance. -/
structure Sys where
  db : DB
  expansion_index : Nat
deriving Repr, DecidableEq

/-- The empty freshly initialised store. -/
def initSys : Sys :=
  { db := { persons := [], relationships := [], sources := [], queue := [],
            merge_log := [], logs := [], next_person_id := 1, next_rel_id := 1,
            next_job_id := 1 },
    expansion_index := 0 }

/-- One mutation step of the system: every write path of the embedded agents.
Identity resolution, the edge upserts, the save-step scalar updates, job status
transitions, the no-discovery failure path, refills (only when no pending job
exists, as in the tick loops), seeding and the category-agent genesis repair. -/
inductive Step : Sys → Sys → Prop where
  | raFindOrCreate (name : String) (wid : Option String) (s : Sys) :
      Step s ⟨(ResearchAgent.findOrCreate name wid s.db).2, s.expansion_index⟩
  | raLinkParent (c : Nat) (pd : Candidate) (pt : String) (url : Option String) (s : Sys)
      (h : (findPerson s.db c).isSome) :
      Step s ⟨ResearchAgent.linkParent c pd pt url s.db, s.expansion_index⟩
  | raLinkChild (par : Nat) (cd : Candidate) (url : Option String) (s : Sys)
      (h : (findPerson s.db par).isSome) :
      Step s ⟨ResearchAgent.linkChild par cd url s.db, s.expansion_index⟩
  | saveScalars (pid : Nat) (wid : Option String) (byear : Option Int) (s : Sys) :
      Step s ⟨ResearchAgent.saveScalars pid wid byear s.db, s.expansion_index⟩
  | setRes (pid : Nat) (s : Sys) :
      Step s ⟨setResearched pid s.db, s.expansion_index⟩
  | jobStatus (jid : Nat) (st : String) (s : Sys) :
      Step s ⟨markJob jid st s.db, s.expansion_index⟩
  | raTickNoDiscovery (jid pid a : Nat) (s : Sys)
      (h : ∃ j ∈ s.db.queue, j.id = jid ∧ j.person_id = pid ∧ j.attempts = a) :
      Step s ⟨ResearchAgent.tickNoDiscovery jid pid a s.db, s.expansion_index⟩
  | raRefill (s : Sys) (h : pendingCount s.db = 0) :
      Step s ⟨(ResearchAgent.refillQueue s.db s.expansion_index).1,
              (ResearchAgent.refillQueue s.db s.expansion_index).2⟩
  | gaFindOrCreate (name : String) (wid : Option String) (s : Sys) :
      Step s ⟨(GenesisAgent.findOrCreate name wid s.db).2, s.expansion_index⟩
  | gaLinkParent (c : Nat) (pd : Candidate) (pt : String) (url : Option String) (s : Sys)
      (h : (findPerson s.db c).isSome) :
      Step s ⟨GenesisAgent.linkParent c pd pt url s.db, s.expansion_index⟩
  | gaLinkChild (par : Nat) (cd : Candidate) (url : Option String) (s : Sys)
      (h : (findPerson s.db par).isSome) :
      Step s ⟨GenesisAgent.linkChild par cd url s.db, s.expansion_index⟩
  | gaSeed (s : Sys) :
      Step s ⟨GenesisAgent.seedInitialPersons s.db, s.expansion_index⟩
  | gaRefill (s : Sys) (h : pendingCount s.db = 0) :
      Step s ⟨(GenesisAgent.refillQueue s.db s.expansion_index).1,
              (GenesisAgent.refillQueue s.db s.expansion_index).2⟩
  | caFixGenesis (s : Sys) :
      Step s ⟨CategoryAgent.fixWrongGenesis s.db, s.expansion_index⟩

/-- States reachable from the fresh store by agent steps. -/
inductive Reachable : Sys → Prop where
  | init : Reachable initSys
  | step {s t : Sys} : Reachable s → Step s t → Reachable t

/-- Genesis bookkeeping consistency of one person row: the flag is set exactly
when a code is stored. -/
def genOk (p : Person) : Prop := p.is_genesis = true ↔ p.genesis_code ≠ none

instance (p : Person) : Decidable (genOk p) := by
  unfold genOk; infer_instance

/-- The store-wide genesis bookkeeping invariant of claim C7. -/
def GenesisInv (db : DB) : Prop := ∀ p ∈ db.persons, genOk p

instance (db : DB) : Decidable (GenesisInv db) := by
  unfold GenesisInv; infer_instance

/-- No relationship row of parent_type father has the given person as child. -/
def noFatherEdge (db : DB) (pid : Nat) : Prop :=
  ∀ r ∈ db.relationships, ¬(r.child_id = pid ∧ r.parent_type = "father")

instance (db : DB) (pid : Nat) : Decidable (noFatherEdge db pid) := by
  unfold noFatherEdge; infer_instance

/-- Number of rows with is_primary true for a (child_id, parent_type) pair. -/
def primCount (db : DB) (c : Nat) (t : String) : Nat :=
  db.relationships.countP (fun r => r.child_id == c && r.parent_type == t && r.is_primary)

/-- At most one primary row per (child_id, parent_type) pair. -/
def AtMostOnePrimary (db : DB) : Prop := ∀ c t, primCount db c t ≤ 1

/-- No relationship row is self-referential. -/
def NoSelfEdge (db : DB) : Prop := ∀ r ∈ db.relationships, r.child_id ≠ r.parent_id

instance (db : DB) : Decidable (NoSelfEdge db) := by
  unfold NoSelfEdge; infer_instance

/-- Claim C1 as stated: in every reachable state, every person is flagged
genesis exactly while no father edge with that person as child exists. -/
def claimC1 : Prop :=
  ∀ s, Reachable s → ∀ p ∈ s.db.persons, (p.is_genesis = true ↔ noFatherEdge s.db p.id)

/-- Claim C2 as stated: every reachable state has at most one primary row per
(child_id, parent_type) pair. -/
def claimC2 : Prop := ∀ s, Reachable s → AtMostOnePrimary s.db

/-- Claim C5 as stated, for the GenesisAgent writer that carries the demotion
logic: when a primary edge of the requested type already exists, a strictly
higher-confidence claim demotes it and the incoming edge ends up primary,
and otherwise the incoming edge ends up as a non-primary branch. -/
def claimC5 : Prop :=
  ∀ db c pd pt url pid e,
    (GenesisAgent.findOrCreate pd.name pd.wikidata_id db).1 = some pid →
    pid ≠ c →
    findPrimary (GenesisAgent.findOrCreate pd.name pd.wikidata_id db).2 c pt = some e →
    ((e.confidence < pd.confidence →
        (∀ r ∈ (GenesisAgent.linkParent c pd pt url db).relationships, r.id = e.id →
           r.is_primary = false ∧ r.is_branch = true) ∧
        (∃ r ∈ (GenesisAgent.linkParent c pd pt url db).relationships,
           r.child_id = c ∧ r.parent_id = pid ∧ r.parent_type = pt ∧ r.is_primary = true)) ∧
     (¬ e.confidence < pd.confidence →
        ∃ r ∈ (GenesisAgent.linkParent c pd pt url db).relationships,
          r.child_id = c ∧ r.parent_id = pid ∧ r.parent_type = pt ∧
          r.is_primary = false ∧ r.is_branch = true))

/-- The state after one ResearchAgent refill of the fresh store: the first
expansion seed Noah is created (not genesis) and enqueued at priority 85. -/
def seedNoahState : Sys :=
  ⟨(ResearchAgent.refillQueue initSys.db initSys.expansion_index).1,
   (ResearchAgent.refillQueue initSys.db initSys.expansion_index).2⟩

/-- Noah (person 1) gains father Felix (person 2) by a wikidata-confidence
parent link. -/
def twoPrimaryS2 : Sys :=
  ⟨ResearchAgent.linkParent 1 ⟨"Felix", none, 92⟩ "father" none seedNoahState.db,
   seedNoahState.expansion_index⟩

/-- Felix (person 2) gains father Gamma (person 3). -/
def twoPrimaryS3 : Sys :=
  ⟨ResearchAgent.linkParent 2 ⟨"Gamma", none, 92⟩ "father" none twoPrimaryS2.db,
   twoPrimaryS2.expansion_index⟩

/-- Researching Gamma (person 3) reports Noah as a child: link_child inserts a
second primary father edge for Noah without checking the existing one. -/
def twoPrimaryS4 : Sys :=
  ⟨ResearchAgent.linkChild 3 ⟨"Noah", none, 88⟩ none twoPrimaryS3.db,
   twoPrimaryS3.expansion_index⟩

/-- A store holding a single genesis person Alpha with code G1. -/
def genesisAlphaDB : DB :=
  { persons := [{ id := 1, name := "Alpha", ptype := "human", wikidata_id := none,
                  approx_birth_year := none, is_genesis := true, genesis_code := some "G1",
                  agent_researched := false }],
    relationships := [], sources := [], queue := [], merge_log := [], logs := [],
    next_person_id := 2, next_rel_id := 1, next_job_id := 1 }

/-- A store where child Alpha has a primary father edge to Beta at confidence
80 and a branch father edge to Gamma at confidence 70. -/
def branchPairDB : DB :=
  { persons :=
      [{ id := 1, name := "Alpha", ptype := "human", wikidata_id := none,
         approx_birth_year := none, is_genesis := false, genesis_code := none,
         agent_researched := false },
       { id := 2, name := "Beta", ptype := "human", wikidata_id := none,
         approx_birth_year := none, is_genesis := false, genesis_code := none,
         agent_researched := false },
       { id := 3, name := "Gamma", ptype := "human", wikidata_id := none,
         approx_birth_year := none, is_genesis := false, genesis_code := none,
         agent_researched := false }],
    relationships :=
      [{ id := 1, child_id := 1, parent_id := 2, parent_type := "father",
         confidence := 80, is_primary := true, is_branch := false },
       { id := 2, child_id := 1, parent_id := 3, parent_type := "father",
         confidence := 70, is_primary := false, is_branch := true }],
    sources := [], queue := [], merge_log := [], logs := [],
    next_person_id := 4, next_rel_id := 3, next_job_id := 1 }

/-- A store with six genesis persons and a seventh non-genesis subject Alpha
whose research job has already failed four times. -/
def sixGenesisDB : DB :=
  { persons :=
      [{ id := 1, name := "S1", ptype := "human", wikidata_id := none,
         approx_birth_year := none, is_genesis := true, genesis_code := some "G1",
         agent_researched := false },
       { id := 2, name := "S2", ptype := "human", wikidata_id := none,
         approx_birth_year := none, is_genesis := true, genesis_code := some "G2",
         agent_researched := false },
       { id := 3, name := "S3", ptype := "human", wikidata_id := none,
         approx_birth_year := none, is_genesis := true, genesis_code := some "G3",
         agent_researched := false },
       { id := 4, name := "S4", ptype := "human", wikidata_id := none,
         approx_birth_year := none, is_genesis := true, genesis_code := some "G4",
         agent_researched := false },
       { id := 5, name := "S5", ptype := "human", wikidata_id := none,
         approx_birth_year := none, is_genesis := true, genesis_code := some "G5",
         agent_researched := false },
       { id := 6, name := "S6", ptype := "human", wikidata_id := none,
         approx_birth_year := none, is_genesis := true, genesis_code := some "G6",
         agent_researched := false },
       { id := 7, name := "Alpha", ptype := "human", wikidata_id := none,
         approx_birth_year := none, is_genesis := false, genesis_code := none,
         agent_researched := false }],
    relationships := [], sources := [],
    queue := [{ id := 1, person_id := 7, direction := "both", priority := 100,
                status := "pending", attempts := 4, created_at := 1 }],
    merge_log := [], logs := [],
    next_person_id := 8, next_rel_id := 1, next_job_id := 2 }

/-- The empty discovery accumulator. -/
def emptyDisc : Discovery :=
  { father := none, mother := none, children := [], birth_year := none,
    source_url := none, auto_categories := [], wikidata_id := none }

/-- A discovery carrying only a father candidate. -/
def fatherDisc (nm : String) (conf : Rat) : Discovery :=
  { father := some { name := nm, wikidata_id := none, confidence := conf },
    mother := none, children := [], birth_year := none, source_url := none,
    auto_categories := [], wikidata_id := none }

/-- A system whose expansion index has consumed the whole seed list over an
empty store: the refill step can only reset the index. -/
def exhaustedState : Sys := ⟨initSys.db, ResearchAgent.EXPANSION_SEEDS.length⟩

/-! Component-effect lemmas: which tables each primitive write leaves alone. -/

@[simp] theorem persons_enqueueJob (pid : Nat) (prio : Int) (db : DB) :
    (enqueueJob pid prio db).persons = db.persons := rfl

@[simp] theorem persons_enqueueIfNoPending (pid : Nat) (prio : Int) (db : DB) :
    (enqueueIfNoPending pid prio db).persons = db.persons := by
  unfold enqueueIfNoPending; split <;> rfl

@[simp] theorem persons_addSource (rid : Nat) (u st : String) (db : DB) :
    (addSource rid u st db).persons = db.persons := rfl

@[simp] theorem persons_addSourceDedup (rid : Nat) (u st : String) (db : DB) :
    (addSourceDedup rid u st db).persons = db.persons := by
  unfold addSourceDedup; split <;> rfl

@[simp] theorem persons_insertRel (c p : Nat) (t : String) (conf : Rat) (prim br : Bool)
    (db : DB) : (insertRel c p t conf prim br db).2.persons = db.persons := rfl

@[simp] theorem persons_updateRelConfidence (rid : Nat) (conf : Rat) (db : DB) :
    (updateRelConfidence rid conf db).persons = db.persons := rfl

@[simp] theorem persons_demoteRel (rid : Nat) (db : DB) :
    (demoteRel rid db).persons = db.persons := rfl

@[simp] theorem persons_markJob (jid : Nat) (st : String) (db : DB) :
    (markJob jid st db).persons = db.persons := rfl

@[simp] theorem persons_setJobStatusAttempts (jid : Nat) (st : String) (a : Nat) (db : DB) :
    (setJobStatusAttempts jid st a db).persons = db.persons := rfl

@[simp] theorem persons_resetFailed (db : DB) :
    (resetFailed db).persons = db.persons := rfl

@[simp] theorem rels_enqueueJob (pid : Nat) (prio : Int) (db : DB) :
    (enqueueJob pid prio db).relationships = db.relationships := rfl

@[simp] theorem rels_enqueueIfNoPending (pid : Nat) (prio : Int) (db : DB) :
    (enqueueIfNoPending pid prio db).relationships = db.relationships := by
  unfold enqueueIfNoPending; split <;> rfl

@[simp] theorem rels_addSource (rid : Nat) (u st : String) (db : DB) :
    (addSource rid u st db).relationships = db.relationships := rfl

@[simp] theorem rels_addSourceDedup (rid : Nat) (u st : String) (db : DB) :
    (addSourceDedup rid u st db).relationships = db.relationships := by
  unfold addSourceDedup; split <;> rfl

@[simp] theorem rels_updatePersonWikidata (i : Nat) (w : String) (db : DB) :
    (updatePersonWikidata i w db).relationships = db.relationships := rfl

@[simp] theorem rels_updatePersonBirthYear (i : Nat) (y : Int) (db : DB) :
    (updatePersonBirthYear i y db).relationships = db.relationships := rfl

@[simp] theorem rels_setGenesis (i : Nat) (gc : String) (db : DB) :
    (setGenesis i gc db).relationships = db.relationships := rfl

@[simp] theorem rels_clearGenesis (i : Nat) (db : DB) :
    (clearGenesis i db).relationships = db.relationships := rfl

@[simp] theorem rels_setResearched (i : Nat) (db : DB) :
    (setResearched i db).relationships = db.relationships := rfl

@[simp] theorem rels_markJob (jid : Nat) (st : String) (db : DB) :
    (markJob jid st db).relationships = db.relationships := rfl

@[simp] theorem rels_setJobStatusAttempts (jid : Nat) (st : String) (a : Nat) (db : DB) :
    (setJobStatusAttempts jid st a db).relationships = db.relationships := rfl

@[simp] theorem rels_resetFailed (db : DB) :
    (resetFailed db).relationships = db.relationships := rfl

@[simp] theorem rels_dissolveGenesisIfHigh (c p : Nat) (conf : Rat) (db : DB) :
    (dissolveGenesisIfHigh c p conf db).relationships = db.relationships := by
  unfold dissolveGenesisIfHigh
  split
  · split
    · split <;> rfl
    · rfl
  · rfl

@[simp] theorem mergelog_enqueueJob (pid : Nat) (prio : Int) (db : DB) :
    (enqueueJob pid prio db).merge_log = db.merge_log := rfl

@[simp] theorem mergelog_enqueueIfNoPending (pid : Nat) (prio : Int) (db : DB) :
    (enqueueIfNoPending pid prio db).merge_log = db.merge_log := by
  unfold enqueueIfNoPending; split <;> rfl

@[simp] theorem mergelog_addSource (rid : Nat) (u st : String) (db : DB) :
    (addSource rid u st db).merge_log = db.merge_log := rfl

@[simp] theorem mergelog_addSourceDedup (rid : Nat) (u st : String) (db : DB) :
    (addSourceDedup rid u st db).merge_log = db.merge_log := by
  unfold addSourceDedup; split <;> rfl

@[simp] theorem mergelog_insertRel (c p : Nat) (t : String) (conf : Rat) (prim br : Bool)
    (db : DB) : (insertRel c p t conf prim br db).2.merge_log = db.merge_log := rfl

@[simp] theorem mergelog_updateRelConfidence (rid : Nat) (conf : Rat) (db : DB) :
    (updateRelConfidence rid conf db).merge_log = db.merge_log := rfl

@[simp] theorem mergelog_demoteRel (rid : Nat) (db : DB) :
    (demoteRel rid db).merge_log = db.merge_log := rfl

@[simp] theorem mergelog_updatePersonWikidata (i : Nat) (w : String) (db : DB) :
    (updatePersonWikidata i w db).merge_log = db.merge_log := rfl

@[simp] theorem mergelog_clearGenesis (i : Nat) (db : DB) :
    (clearGenesis i db).merge_log = db.merge_log := rfl

/-! Lookup lemmas. -/

theorem find?_congr_on {α : Type} {l : List α} {p q : α → Bool}
    (h : ∀ a ∈ l, p a = q a) : l.find? p = l.find? q := by
  induction l with
  | nil => rfl
  | cons x xs ih =>
      have hx := h x (List.mem_cons_self x xs)
      by_cases hp : p x = true
      · rw [List.find?_cons_of_pos _ hp, List.find?_cons_of_pos _ (hx ▸ hp)]
      · rw [List.find?_cons_of_neg _ hp,
            List.find?_cons_of_neg _ (by rw [← hx]; exact hp),
            ih (fun a ha => h a (List.mem_cons_of_mem x ha))]

theorem findPerson_eq_of_persons {dbA dbB : DB} (i : Nat)
    (h : dbA.persons = dbB.persons) : findPerson dbA i = findPerson dbB i := by
  unfold findPerson; rw [h]

/-- Lookup by id after an id-preserving row transformation. -/
theorem findPerson_map (db : DB) (f : Person → Person) (i : Nat)
    (hid : ∀ p, (f p).id = p.id) :
    findPerson { db with persons := db.persons.map f } i = (findPerson db i).map f := by
  unfold findPerson
  show (db.persons.map f).find? (fun p => p.id == i) = _
  rw [List.find?_map]
  exact congrArg (Option.map f)
    (find?_congr_on (fun a _ => by simp only [Function.comp_apply, hid]))

/-- Lookup by id is unaffected by appending rows. -/
theorem findPerson_append_of_found {db : DB} {l : List Person} {i : Nat} {p : Person}
    (h : findPerson db i = some p) :
    findPerson { db with persons := db.persons ++ l } i = some p := by
  unfold findPerson at h ⊢
  show (db.persons ++ l).find? (fun q => q.id == i) = some p
  rw [List.find?_append, h]; rfl

theorem findPerson_id {db : DB} {i : Nat} {p : Person}
    (h : findPerson db i = some p) : p.id = i := by
  have := List.find?_some h
  simpa using this

theorem find?_append_of_found {α : Type} {l1 l2 : List α} {p : α → Bool} {a : α}
    (h : l1.find? p = some a) : (l1 ++ l2).find? p = some a := by
  rw [List.find?_append, h]; rfl

/-- Lookup by id through any store whose persons are an id-preserving map. -/
theorem findPerson_of_map (dbA dbB : DB) (f : Person → Person)
    (h : dbB.persons = dbA.persons.map f) (hid : ∀ p, (f p).id = p.id) (i : Nat) :
    findPerson dbB i = (findPerson dbA i).map f := by
  unfold findPerson
  rw [h, List.find?_map]
  exact congrArg (Option.map f)
    (find?_congr_on (fun a _ => by simp only [Function.comp_apply, hid]))

/-- Lookup by id through any store whose persons are extended at the end. -/
theorem findPerson_of_append (dbA dbB : DB) (l : List Person) {i : Nat} {p : Person}
    (h : dbB.persons = dbA.persons ++ l) (hf : findPerson dbA i = some p) :
    findPerson dbB i = some p := by
  unfold findPerson at hf ⊢
  rw [h]; exact find?_append_of_found hf

/-! Identity-resolution lemmas shared by the writer proofs. -/

theorem RA_foc_rels (n : String) (w : Option String) (db : DB) :
    (ResearchAgent.findOrCreate n w db).2.relationships = db.relationships := by
  unfold ResearchAgent.findOrCreate
  split <;> first
  | rfl
  | (split <;> first
      | rfl
      | (split <;> rfl))

theorem RA_foc_mergelog (n : String) (w : Option String) (db : DB) :
    (ResearchAgent.findOrCreate n w db).2.merge_log = db.merge_log := by
  unfold ResearchAgent.findOrCreate
  split <;> first
  | rfl
  | (split <;> first
      | rfl
      | (split <;> rfl))

theorem RA_foc_queue (n : String) (w : Option String) (db : DB) :
    (ResearchAgent.findOrCreate n w db).2.queue = db.queue := by
  unfold ResearchAgent.findOrCreate
  split <;> first
  | rfl
  | (split <;> first
      | rfl
      | (split <;> rfl))

theorem RA_foc_sources (n : String) (w : Option String) (db : DB) :
    (ResearchAgent.findOrCreate n w db).2.sources = db.sources := by
  unfold ResearchAgent.findOrCreate
  split <;> first
  | rfl
  | (split <;> first
      | rfl
      | (split <;> rfl))

theorem GA_foc_rels (n : String) (w : Option String) (db : DB) :
    (GenesisAgent.findOrCreate n w db).2.relationships = db.relationships := by
  unfold GenesisAgent.findOrCreate
  split <;> first
  | rfl
  | (split <;> first
      | rfl
      | (split <;> rfl))

theorem GA_foc_mergelog (n : String) (w : Option String) (db : DB) :
    (GenesisAgent.findOrCreate n w db).2.merge_log = db.merge_log := by
  unfold GenesisAgent.findOrCreate
  split <;> first
  | rfl
  | (split <;> first
      | rfl
      | (split <;> rfl))

theorem GA_foc_queue (n : String) (w : Option String) (db : DB) :
    (GenesisAgent.findOrCreate n w db).2.queue = db.queue := by
  unfold GenesisAgent.findOrCreate
  split <;> first
  | rfl
  | (split <;> first
      | rfl
      | (split <;> rfl))

theorem GA_foc_sources (n : String) (w : Option String) (db : DB) :
    (GenesisAgent.findOrCreate n w db).2.sources = db.sources := by
  unfold GenesisAgent.findOrCreate
  split <;> first
  | rfl
  | (split <;> first
      | rfl
      | (split <;> rfl))


theorem wid_map_id (j : Nat) (u : String) :
    ∀ q : Person,
      ((fun q => if q.id == j then { q with wikidata_id := some u } else q) q).id = q.id := by
  intro q; by_cases hq : (q.id == j) = true <;> simp [hq]

theorem clearG_map_id (c : Nat) :
    ∀ q : Person, ((fun q => if q.id == c then clearG q else q) q).id = q.id := by
  intro q; by_cases hq : (q.id == c) = true <;> simp [hq, clearG]

theorem RA_foc_findPerson {n : String} {w : Option String} {db : DB} {c pid : Nat}
    {child : Person}
    (h1 : (ResearchAgent.findOrCreate n w db).1 = some pid) (h2 : pid ≠ c)
    (hf : findPerson db c = some child) :
    findPerson (ResearchAgent.findOrCreate n w db).2 c = some child := by
  unfold ResearchAgent.findOrCreate at h1 ⊢
  rcases hby : w.bind (fun u => db.persons.find? (fun p => p.wikidata_id == some u)) with _ | p
  · rw [hby] at h1 ⊢
    rcases hname : db.persons.find? (fun p => lowEq p.name n) with _ | p
    · rw [hname] at h1 ⊢
      dsimp only at h1 ⊢
      exact findPerson_of_append db _ _ rfl hf
    · rw [hname] at h1 ⊢
      dsimp only at h1 ⊢
      have hpid : p.id = pid := Option.some.inj h1
      have hcid : child.id = c := findPerson_id hf
      rcases w with _ | u
      · exact hf
      · dsimp only
        have hm := findPerson_of_map db (updatePersonWikidata p.id u db)
          (fun q => if q.id == p.id then { q with wikidata_id := some u } else q)
          rfl (wid_map_id p.id u) c
        rw [hm, hf]
        have hne : (child.id == p.id) = false := by
          simp only [hcid, hpid, beq_eq_false_iff_ne, ne_eq]
          exact fun hh => h2 hh.symm
        simp [hne]
        intro hh
        exact absurd (show pid = c by rw [← hpid, ← hh, hcid]) h2
  · rw [hby] at h1 ⊢
    exact hf

theorem GA_foc_findPerson {n : String} {w : Option String} {db : DB} {c pid : Nat}
    {child : Person}
    (h1 : (GenesisAgent.findOrCreate n w db).1 = some pid) (h2 : pid ≠ c)
    (hf : findPerson db c = some child) :
    findPerson (GenesisAgent.findOrCreate n w db).2 c = some child := by
  unfold GenesisAgent.findOrCreate at h1 ⊢
  rcases hby : w.bind (fun u => db.persons.find? (fun p => p.wikidata_id == some u)) with _ | p
  · rw [hby] at h1 ⊢
    rcases hname : db.persons.find? (fun p => lowEq p.name n) with _ | p
    · rw [hname] at h1 ⊢
      dsimp only at h1 ⊢
      exact findPerson_of_append db _ _ rfl hf
    · rw [hname] at h1 ⊢
      dsimp only at h1 ⊢
      have hpid : p.id = pid := Option.some.inj h1
      have hcid : child.id = c := findPerson_id hf
      rcases w with _ | u
      · exact hf
      · dsimp only
        have hm := findPerson_of_map db (updatePersonWikidata p.id u db)
          (fun q => if q.id == p.id then { q with wikidata_id := some u } else q)
          rfl (wid_map_id p.id u) c
        rw [hm, hf]
        have hne : (child.id == p.id) = false := by
          simp only [hcid, hpid, beq_eq_false_iff_ne, ne_eq]
          exact fun hh => h2 hh.symm
        simp [hne]
        intro hh
        exact absurd (show pid = c by rw [← hpid, ← hh, hcid]) h2
  · rw [hby] at h1 ⊢
    exact hf

/-- The shared dissolution block at confidence at least 95 on a genesis child:
flag and code cleared, exactly one merge_log row appended recording the prior
code, the parent merged into and the confidence. -/
theorem dissolve_findPerson {c p : Nat} {conf : Rat} {db : DB} {child : Person}
    (h95 : 95 ≤ conf) (hf : findPerson db c = some child) (hg : child.is_genesis = true) :
    findPerson (dissolveGenesisIfHigh c p conf db) c = some (clearG child) ∧
    (dissolveGenesisIfHigh c p conf db).merge_log =
      db.merge_log ++ [{ genesis_person_id := c, genesis_code := child.genesis_code,
                         merged_into_person_id := p, confidence_at_merge := conf }] := by
  unfold dissolveGenesisIfHigh
  rw [if_pos h95, hf]
  dsimp only
  rw [if_pos hg]
  constructor
  · have hm := findPerson_of_map db
      ({ clearGenesis c db with merge_log := (clearGenesis c db).merge_log ++
          [{ genesis_person_id := c, genesis_code := child.genesis_code,
             merged_into_person_id := p, confidence_at_merge := conf }] })
      (fun q => if q.id == c then clearG q else q) rfl (clearG_map_id c) c
    rw [hm, hf]
    have hcid : (child.id == c) = true := by simp [findPerson_id hf]
    simp [hcid]
    intro hh
    exact absurd (by simpa using hcid) hh
  · rfl

/-- Dissolution below the threshold changes nothing. -/
theorem dissolve_low {c p : Nat} {conf : Rat} (db : DB) (h : ¬ 95 ≤ conf) :
    dissolveGenesisIfHigh c p conf db = db := by
  unfold dissolveGenesisIfHigh; rw [if_neg h]

/-- Dissolution never touches a person other than the child of the upsert. -/
theorem dissolve_findPerson_other {c i p : Nat} {conf : Rat} (db : DB) (hne : i ≠ c) :
    findPerson (dissolveGenesisIfHigh c p conf db) i = findPerson db i := by
  unfold dissolveGenesisIfHigh
  split
  · rcases hfc : findPerson db c with _ | child
    · rfl
    · dsimp only
      split
      · have hm := findPerson_of_map db
          ({ clearGenesis c db with merge_log := (clearGenesis c db).merge_log ++
              [{ genesis_person_id := c, genesis_code := child.genesis_code,
                 merged_into_person_id := p, confidence_at_merge := conf }] })
          (fun q => if q.id == c then clearG q else q) rfl (clearG_map_id c) i
        rw [hm]
        rcases hfi : findPerson db i with _ | q
        · rfl
        · have hq : (q.id == c) = false := by
            simp only [findPerson_id hfi, beq_eq_false_iff_ne, ne_eq]
            exact hne
          simp [hq]
          intro hh
          simp [hh] at hq
      · rfl
  · rfl

theorem RA_upsert_genesis {c pid : Nat} {pd : Candidate} {pt : String} {url : Option String}
    {prim : Bool} {dbx : DB} {child : Person}
    (h95 : 95 ≤ pd.confidence) (hf : findPerson dbx c = some child)
    (hg : child.is_genesis = true) :
    findPerson (ResearchAgent.linkParentUpsert c pid pd pt url prim dbx) c
      = some (clearG child) ∧
    (ResearchAgent.linkParentUpsert c pid pd pt url prim dbx).merge_log =
      dbx.merge_log ++
        [{ genesis_person_id := c, genesis_code := child.genesis_code,
           merged_into_person_id := pid, confidence_at_merge := pd.confidence }] := by
  have main : ∀ dbw : DB, dbw.persons = dbx.persons → dbw.merge_log = dbx.merge_log →
      findPerson (enqueueIfNoPending pid 75 (dissolveGenesisIfHigh c pid pd.confidence dbw)) c
        = some (clearG child) ∧
      (enqueueIfNoPending pid 75 (dissolveGenesisIfHigh c pid pd.confidence dbw)).merge_log =
        dbx.merge_log ++
          [{ genesis_person_id := c, genesis_code := child.genesis_code,
             merged_into_person_id := pid, confidence_at_merge := pd.confidence }] := by
    intro dbw hp hm
    have hfw : findPerson dbw c = some child := by
      rw [findPerson_eq_of_persons c hp]; exact hf
    obtain ⟨d1, d2⟩ := dissolve_findPerson h95 hfw hg
    refine ⟨?_, ?_⟩
    · rw [findPerson_eq_of_persons c (persons_enqueueIfNoPending pid 75 _)]
      exact d1
    · rw [mergelog_enqueueIfNoPending, d2, hm]
  unfold ResearchAgent.linkParentUpsert
  rcases url with _ | u
  · rcases hrel : findRel dbx c pid pt with _ | e <;> dsimp only <;>
      exact main _ (by simp) (by simp)
  · rcases hrel : findRel dbx c pid pt with _ | e <;> dsimp only <;>
      exact main _ (by simp) (by simp)

theorem GA_upsert_genesis {c pid : Nat} {pd : Candidate} {pt : String} {url : Option String}
    {prim : Bool} {dbx : DB} {child : Person}
    (h95 : 95 ≤ pd.confidence) (hf : findPerson dbx c = some child)
    (hg : child.is_genesis = true) :
    findPerson (GenesisAgent.linkParentUpsert c pid pd pt url prim dbx) c
      = some (clearG child) ∧
    (GenesisAgent.linkParentUpsert c pid pd pt url prim dbx).merge_log =
      dbx.merge_log ++
        [{ genesis_person_id := c, genesis_code := child.genesis_code,
           merged_into_person_id := pid, confidence_at_merge := pd.confidence }] := by
  have main : ∀ dbw : DB, dbw.persons = dbx.persons → dbw.merge_log = dbx.merge_log →
      findPerson (enqueueIfNoPending pid 75 (dissolveGenesisIfHigh c pid pd.confidence dbw)) c
        = some (clearG child) ∧
      (enqueueIfNoPending pid 75 (dissolveGenesisIfHigh c pid pd.confidence dbw)).merge_log =
        dbx.merge_log ++
          [{ genesis_person_id := c, genesis_code := child.genesis_code,
             merged_into_person_id := pid, confidence_at_merge := pd.confidence }] := by
    intro dbw hp hm
    have hfw : findPerson dbw c = some child := by
      rw [findPerson_eq_of_persons c hp]; exact hf
    obtain ⟨d1, d2⟩ := dissolve_findPerson h95 hfw hg
    refine ⟨?_, ?_⟩
    · rw [findPerson_eq_of_persons c (persons_enqueueIfNoPending pid 75 _)]
      exact d1
    · rw [mergelog_enqueueIfNoPending, d2, hm]
  unfold GenesisAgent.linkParentUpsert
  rcases url with _ | u
  · rcases hrel : findRel dbx c pid pt with _ | e <;> dsimp only <;>
      exact main _ (by simp) (by simp)
  · rcases hrel : findRel dbx c pid pt with _ | e <;> dsimp only <;>
      exact main _ (by simp) (by simp)

theorem RA_linkParent_eq {pd : Candidate} {db : DB} {pid : Nat} (c : Nat) (pt : String)
    (url : Option String)
    (h1 : (ResearchAgent.findOrCreate pd.name pd.wikidata_id db).1 = some pid) :
    ResearchAgent.linkParent c pd pt url db
      = ResearchAgent.linkParentResolved c pid pd pt url
          (ResearchAgent.findOrCreate pd.name pd.wikidata_id db).2 := by
  unfold ResearchAgent.linkParent
  simp only [h1]

theorem GA_linkParent_eq {pd : Candidate} {db : DB} {pid : Nat} (c : Nat) (pt : String)
    (url : Option String)
    (h1 : (GenesisAgent.findOrCreate pd.name pd.wikidata_id db).1 = some pid) :
    GenesisAgent.linkParent c pd pt url db
      = GenesisAgent.linkParentResolved c pid pd pt url
          (GenesisAgent.findOrCreate pd.name pd.wikidata_id db).2 := by
  unfold GenesisAgent.linkParent
  simp only [h1]

/-- Claim C3: when the Graph Writer upserts a father or mother edge whose
confidence is at least 95 and the child is flagged genesis, it clears the
childs genesis flag and code and appends exactly one merge log row recording
the prior genesis code, the parent merged into and the confidence at merge.
Proved for both writer variants (ResearchAgent and GenesisAgent link_parent),
assuming identity resolution yields a parent distinct from the child so the
upsert actually happens. -/
theorem c3_genesis_dissolution (db : DB) (c : Nat) (pd : Candidate) (pt : String)
    (url : Option String) (child : Person) (pid : Nat)
    (h95 : 95 ≤ pd.confidence) (hf : findPerson db c = some child)
    (hg : child.is_genesis = true) :
    ((ResearchAgent.findOrCreate pd.name pd.wikidata_id db).1 = some pid → pid ≠ c →
      (∃ q, findPerson (ResearchAgent.linkParent c pd pt url db) c = some q ∧
         q.is_genesis = false ∧ q.genesis_code = none) ∧
      (ResearchAgent.linkParent c pd pt url db).merge_log =
        db.merge_log ++
          [{ genesis_person_id := c, genesis_code := child.genesis_code,
             merged_into_person_id := pid, confidence_at_merge := pd.confidence }]) ∧
    ((GenesisAgent.findOrCreate pd.name pd.wikidata_id db).1 = some pid → pid ≠ c →
      (∃ q, findPerson (GenesisAgent.linkParent c pd pt url db) c = some q ∧
         q.is_genesis = false ∧ q.genesis_code = none) ∧
      (GenesisAgent.linkParent c pd pt url db).merge_log =
        db.merge_log ++
          [{ genesis_person_id := c, genesis_code := child.genesis_code,
             merged_into_person_id := pid, confidence_at_merge := pd.confidence }]) := by
  constructor
  · intro h1 h2
    have hf1 := RA_foc_findPerson h1 h2 hf
    rw [RA_linkParent_eq c pt url h1]
    unfold ResearchAgent.linkParentResolved
    rw [if_neg (by simpa using h2)]
    obtain ⟨d1, d2⟩ := RA_upsert_genesis h95 hf1 hg
    exact ⟨⟨clearG child, d1, rfl, rfl⟩, by rw [d2, RA_foc_mergelog]⟩
  · intro h1 h2
    have hf1 := GA_foc_findPerson h1 h2 hf
    rw [GA_linkParent_eq c pt url h1]
    unfold GenesisAgent.linkParentResolved
    rw [if_neg (by simpa using h2)]
    split
    · obtain ⟨d1, d2⟩ := GA_upsert_genesis h95 hf1 hg
      exact ⟨⟨clearG child, d1, rfl, rfl⟩, by rw [d2, GA_foc_mergelog]⟩
    · rename_i e heq
      split
      · have hfd : findPerson
            (demoteRel e.id (GenesisAgent.findOrCreate pd.name pd.wikidata_id db).2) c
              = some child := by
          rw [findPerson_eq_of_persons c (persons_demoteRel e.id _)]
          exact hf1
        obtain ⟨d1, d2⟩ := GA_upsert_genesis h95 hfd hg
        refine ⟨⟨clearG child, d1, rfl, rfl⟩, ?_⟩
        rw [d2, mergelog_demoteRel, GA_foc_mergelog]
      · obtain ⟨d1, d2⟩ := GA_upsert_genesis h95 hf1 hg
        exact ⟨⟨clearG child, d1, rfl, rfl⟩, by rw [d2, GA_foc_mergelog]⟩

theorem c3_genesis_dissolution_witness :
    (∃ q, findPerson
        (ResearchAgent.linkParent 1 ⟨"Beta", none, 96⟩ "father" none genesisAlphaDB) 1
          = some q ∧ q.is_genesis = false ∧ q.genesis_code = none) ∧
    (ResearchAgent.linkParent 1 ⟨"Beta", none, 96⟩ "father" none genesisAlphaDB).merge_log =
      genesisAlphaDB.merge_log ++
        [{ genesis_person_id := 1, genesis_code := some "G1",
           merged_into_person_id := 2, confidence_at_merge := 96 }] :=
  (c3_genesis_dissolution genesisAlphaDB 1 ⟨"Beta", none, 96⟩ "father" none
      ⟨1, "Alpha", "human", none, none, true, some "G1", false⟩ 2
      (by decide) (by decide) (by decide)).1 (by decide) (by decide)

theorem setG_map_id (i : Nat) (gc : String) :
    ∀ q : Person, ((fun q => if q.id == i then setG gc q else q) q).id = q.id := by
  intro q; by_cases hq : (q.id == i) = true <;> simp [hq, setG]

theorem fatherEdgeCount_jobs (jid : Nat) (st : String) (a pid : Nat) (db : DB) :
    fatherEdgeCount pid (setJobStatusAttempts jid st a db) = fatherEdgeCount pid db := by
  unfold fatherEdgeCount; rw [rels_setJobStatusAttempts]

theorem genesisCount_jobs (jid : Nat) (st : String) (a : Nat) (db : DB) :
    genesisCount (setJobStatusAttempts jid st a db) = genesisCount db := by
  unfold genesisCount; rw [persons_setJobStatusAttempts]

theorem findPerson_jobs (jid : Nat) (st : String) (a i : Nat) (db : DB) :
    findPerson (setJobStatusAttempts jid st a db) i = findPerson db i :=
  findPerson_eq_of_persons i (persons_setJobStatusAttempts jid st a db)

theorem setGenesis_findPerson {i : Nat} {db : DB} {p0 : Person} (gc : String)
    (hp0 : findPerson db i = some p0) :
    findPerson (setGenesis i gc db) i = some (setG gc p0) := by
  have hm := findPerson_of_map db (setGenesis i gc db)
    (fun q => if q.id == i then setG gc q else q) rfl (setG_map_id i gc) i
  rw [hm, hp0]
  have hpi : (p0.id == i) = true := by simp [findPerson_id hp0]
  simp [hpi]
  intro hh
  exact absurd (by simpa using hpi) hh

theorem tickFail_queue (jid pid a : Nat) (db : DB)
    (h5 : ResearchAgent.MAX_ATTEMPTS ≤ a + 1) :
    (ResearchAgent.tickNoDiscovery jid pid a db).queue
      = (setJobStatusAttempts jid "failed" (a + 1) db).queue := by
  unfold ResearchAgent.tickNoDiscovery ResearchAgent.failGenesisCheck
  rw [if_pos h5]
  split <;> first
  | rfl
  | (split <;> first
      | rfl
      | (split <;> rfl))

/-- Claim C4: a research cycle with no usable discovery increments the attempt
counter and returns the job to pending; reaching the cap of 5 turns the job
failed, and if the subject then has no father edge and is not already genesis
it receives is_genesis true and the fresh sequential code G(n+1), where n is
the number of persons currently flagged genesis. -/
theorem c4_attempt_cap (jid pid a : Nat) (db : DB) :
    (a + 1 < ResearchAgent.MAX_ATTEMPTS →
       ResearchAgent.tickNoDiscovery jid pid a db
         = setJobStatusAttempts jid "pending" (a + 1) db) ∧
    (a + 1 = ResearchAgent.MAX_ATTEMPTS →
       (∀ j ∈ (ResearchAgent.tickNoDiscovery jid pid a db).queue, j.id = jid →
          j.status = "failed" ∧ j.attempts = ResearchAgent.MAX_ATTEMPTS) ∧
       (fatherEdgeCount pid db = 0 →
          ∀ p0, findPerson db pid = some p0 → p0.is_genesis = false →
            ∃ q, findPerson (ResearchAgent.tickNoDiscovery jid pid a db) pid = some q ∧
              q.is_genesis = true ∧
              q.genesis_code = some ("G" ++ toString (genesisCount db + 1)))) := by
  constructor
  · intro hlt
    unfold ResearchAgent.tickNoDiscovery
    rw [if_neg (Nat.not_le.mpr hlt)]
  · intro heq
    have h5 : ResearchAgent.MAX_ATTEMPTS ≤ a + 1 := le_of_eq heq.symm
    constructor
    · intro j hj hjid
      rw [tickFail_queue jid pid a db h5] at hj
      unfold setJobStatusAttempts at hj
      simp only [List.mem_map] at hj
      obtain ⟨j0, hj0, rfl⟩ := hj
      by_cases hcond : (j0.id == jid) = true
      · simp [hcond, heq]
      · rw [if_neg hcond] at hjid ⊢
        exact absurd (by simp [hjid] : (j0.id == jid) = true) hcond
    · intro hfc p0 hp0 hgen
      unfold ResearchAgent.tickNoDiscovery ResearchAgent.failGenesisCheck
      rw [if_pos h5]
      have hfc1 : (fatherEdgeCount pid (setJobStatusAttempts jid "failed" (a + 1) db) == 0)
          = true := by
        rw [fatherEdgeCount_jobs, hfc]; rfl
      rw [if_pos hfc1]
      rw [findPerson_jobs jid "failed" (a + 1) pid db, hp0]
      dsimp only
      rw [if_neg (by simp [hgen])]
      refine ⟨setG ("G" ++ toString
          (genesisCount (setJobStatusAttempts jid "failed" (a + 1) db) + 1)) p0, ?_, rfl, ?_⟩
      · exact setGenesis_findPerson _
          ((findPerson_jobs jid "failed" (a + 1) pid db).trans hp0)
      · rw [genesisCount_jobs]
        rfl

theorem c4_attempt_cap_witness :
    ("G" ++ toString (genesisCount sixGenesisDB + 1)) = "G7" ∧
    (∀ j ∈ (ResearchAgent.tickNoDiscovery 1 7 4 sixGenesisDB).queue, j.id = 1 →
        j.status = "failed" ∧ j.attempts = ResearchAgent.MAX_ATTEMPTS) ∧
    (∃ q, findPerson (ResearchAgent.tickNoDiscovery 1 7 4 sixGenesisDB) 7 = some q ∧
        q.is_genesis = true ∧
        q.genesis_code = some ("G" ++ toString (genesisCount sixGenesisDB + 1))) := by
  have h := (c4_attempt_cap 1 7 4 sixGenesisDB).2 (by decide)
  exact ⟨by decide, h.1,
    h.2 (by decide) ⟨7, "Alpha", "human", none, none, false, none, false⟩ (by decide) (by decide)⟩

/-- Claim C1 as stated is false: one ResearchAgent refill step on the fresh
store creates the seed person Noah with is_genesis false although no father
edge for Noah exists, so is_genesis is not equivalent to the absence of a
father edge between operations. -/
theorem c1_counterexample : ¬ claimC1 := by
  intro h
  have hr : Reachable seedNoahState :=
    Reachable.step Reachable.init (Step.raRefill initSys (by decide))
  exact absurd (h seedNoahState hr) (by decide)

theorem RA_foc_keeps (n : String) (w : Option String) (db : DB) (pid0 : Nat) (p : Person)
    (hf : findPerson db pid0 = some p) :
    ∃ q, findPerson (ResearchAgent.findOrCreate n w db).2 pid0 = some q ∧
      q.is_genesis = p.is_genesis ∧ q.genesis_code = p.genesis_code := by
  unfold ResearchAgent.findOrCreate
  rcases hby : w.bind (fun u => db.persons.find? (fun q => q.wikidata_id == some u)) with _ | pw
  · rw [hby]
    rcases hname : db.persons.find? (fun q => lowEq q.name n) with _ | pn
    · rw [hname]
      dsimp only
      exact ⟨p, findPerson_of_append db _ _ rfl hf, rfl, rfl⟩
    · rw [hname]
      dsimp only
      rcases w with _ | u
      · exact ⟨p, hf, rfl, rfl⟩
      · dsimp only
        have hm := findPerson_of_map db (updatePersonWikidata pn.id u db)
          (fun q => if q.id == pn.id then { q with wikidata_id := some u } else q)
          rfl (wid_map_id pn.id u) pid0
        rw [hm, hf]
        by_cases hc : (p.id == pn.id) = true
        · refine ⟨{ p with wikidata_id := some u }, ?_, rfl, rfl⟩
          show some (if (p.id == pn.id) = true
              then { p with wikidata_id := some u } else p)
            = some { p with wikidata_id := some u }
          rw [if_pos hc]
        · refine ⟨p, ?_, rfl, rfl⟩
          show some (if (p.id == pn.id) = true
              then { p with wikidata_id := some u } else p) = some p
          rw [if_neg hc]
  · rw [hby]
    exact ⟨p, hf, rfl, rfl⟩

theorem GA_foc_keeps (n : String) (w : Option String) (db : DB) (pid0 : Nat) (p : Person)
    (hf : findPerson db pid0 = some p) :
    ∃ q, findPerson (GenesisAgent.findOrCreate n w db).2 pid0 = some q ∧
      q.is_genesis = p.is_genesis ∧ q.genesis_code = p.genesis_code := by
  unfold GenesisAgent.findOrCreate
  rcases hby : w.bind (fun u => db.persons.find? (fun q => q.wikidata_id == some u)) with _ | pw
  · rw [hby]
    rcases hname : db.persons.find? (fun q => lowEq q.name n) with _ | pn
    · rw [hname]
      dsimp only
      exact ⟨p, findPerson_of_append db _ _ rfl hf, rfl, rfl⟩
    · rw [hname]
      dsimp only
      rcases w with _ | u
      · exact ⟨p, hf, rfl, rfl⟩
      · dsimp only
        have hm := findPerson_of_map db (updatePersonWikidata pn.id u db)
          (fun q => if q.id == pn.id then { q with wikidata_id := some u } else q)
          rfl (wid_map_id pn.id u) pid0
        rw [hm, hf]
        by_cases hc : (p.id == pn.id) = true
        · refine ⟨{ p with wikidata_id := some u }, ?_, rfl, rfl⟩
          show some (if (p.id == pn.id) = true
              then { p with wikidata_id := some u } else p)
            = some { p with wikidata_id := some u }
          rw [if_pos hc]
        · refine ⟨p, ?_, rfl, rfl⟩
          show some (if (p.id == pn.id) = true
              then { p with wikidata_id := some u } else p) = some p
          rw [if_neg hc]
  · rw [hby]
    exact ⟨p, hf, rfl, rfl⟩

theorem RA_upsert_findPerson_other {c pid : Nat} {pd : Candidate} {pt : String}
    {url : Option String} {prim : Bool} {db1 : DB} {pid0 : Nat}
    (hcond : pid0 ≠ c ∨ pd.confidence < 95) :
    findPerson (ResearchAgent.linkParentUpsert c pid pd pt url prim db1) pid0
      = findPerson db1 pid0 := by
  have main : ∀ dbw : DB, dbw.persons = db1.persons →
      findPerson (enqueueIfNoPending pid 75 (dissolveGenesisIfHigh c pid pd.confidence dbw))
          pid0 = findPerson db1 pid0 := by
    intro dbw hp
    rw [findPerson_eq_of_persons pid0 (persons_enqueueIfNoPending pid 75 _)]
    rcases hcond with hne | hlow
    · rw [dissolve_findPerson_other dbw hne]
      exact findPerson_eq_of_persons pid0 hp
    · rw [dissolve_low dbw (not_le.mpr hlow)]
      exact findPerson_eq_of_persons pid0 hp
  unfold ResearchAgent.linkParentUpsert
  rcases url with _ | u
  · rcases hrel : findRel db1 c pid pt with _ | e <;> dsimp only <;>
      exact main _ (by simp)
  · rcases hrel : findRel db1 c pid pt with _ | e <;> dsimp only <;>
      exact main _ (by simp)

theorem GA_upsert_findPerson_other {c pid : Nat} {pd : Candidate} {pt : String}
    {url : Option String} {prim : Bool} {db1 : DB} {pid0 : Nat}
    (hcond : pid0 ≠ c ∨ pd.confidence < 95) :
    findPerson (GenesisAgent.linkParentUpsert c pid pd pt url prim db1) pid0
      = findPerson db1 pid0 := by
  have main : ∀ dbw : DB, dbw.persons = db1.persons →
      findPerson (enqueueIfNoPending pid 75 (dissolveGenesisIfHigh c pid pd.confidence dbw))
          pid0 = findPerson db1 pid0 := by
    intro dbw hp
    rw [findPerson_eq_of_persons pid0 (persons_enqueueIfNoPending pid 75 _)]
    rcases hcond with hne | hlow
    · rw [dissolve_findPerson_other dbw hne]
      exact findPerson_eq_of_persons pid0 hp
    · rw [dissolve_low dbw (not_le.mpr hlow)]
      exact findPerson_eq_of_persons pid0 hp
  unfold GenesisAgent.linkParentUpsert
  rcases url with _ | u
  · rcases hrel : findRel db1 c pid pt with _ | e <;> dsimp only <;>
      exact main _ (by simp)
  · rcases hrel : findRel db1 c pid pt with _ | e <;> dsimp only <;>
      exact main _ (by simp)

theorem RA_linkChildResolved_persons (par cid : Nat) (cd : Candidate)
    (url : Option String) (db1 : DB) :
    (ResearchAgent.linkChildResolved par cid cd url db1).persons = db1.persons := by
  unfold ResearchAgent.linkChildResolved
  split
  · rfl
  · rcases url with _ | u <;>
      rcases hrel : findRel db1 cid par "father" with _ | e <;> simp

theorem GA_linkChildResolved_persons (par cid : Nat) (cd : Candidate)
    (url : Option String) (db1 : DB) :
    (GenesisAgent.linkChildResolved par cid cd url db1).persons = db1.persons := by
  unfold GenesisAgent.linkChildResolved
  split
  · rfl
  · rcases url with _ | u <;>
      rcases hrel : findRel db1 cid par "father" with _ | e <;> simp

/-- Claim C1 amended: genesis status is not pointwise equivalent to the absence
of a father edge; what the writers guarantee is that child-edge writes never
clear a genesis flag, and a parent-edge write clears a persons genesis flag
only when that person is the child of the upsert and the incoming confidence
is at least 95. -/
theorem c1_amended_genesis_clearing (db : DB) (pid0 : Nat) (p : Person)
    (hf : findPerson db pid0 = some p) (hg : p.is_genesis = true) :
    (∀ par cd url, ∃ q, findPerson (ResearchAgent.linkChild par cd url db) pid0 = some q ∧
        q.is_genesis = true) ∧
    (∀ par cd url, ∃ q, findPerson (GenesisAgent.linkChild par cd url db) pid0 = some q ∧
        q.is_genesis = true) ∧
    (∀ c pd pt url, pid0 ≠ c ∨ pd.confidence < 95 →
        ∃ q, findPerson (ResearchAgent.linkParent c pd pt url db) pid0 = some q ∧
          q.is_genesis = true) ∧
    (∀ c pd pt url, pid0 ≠ c ∨ pd.confidence < 95 →
        ∃ q, findPerson (GenesisAgent.linkParent c pd pt url db) pid0 = some q ∧
          q.is_genesis = true) := by
  refine ⟨?_, ?_, ?_, ?_⟩
  · intro par cd url
    obtain ⟨q, hq, hgen, _⟩ := RA_foc_keeps cd.name cd.wikidata_id db pid0 p hf
    rcases hfoc : ResearchAgent.findOrCreate cd.name cd.wikidata_id db with ⟨opid, db1⟩
    rw [hfoc] at hq
    rcases opid with _ | cid
    · have hL : ResearchAgent.linkChild par cd url db = db1 := by
        unfold ResearchAgent.linkChild
        simp only [hfoc]
      rw [hL]
      exact ⟨q, hq, hgen.trans hg⟩
    · have hL : ResearchAgent.linkChild par cd url db
          = ResearchAgent.linkChildResolved par cid cd url db1 := by
        unfold ResearchAgent.linkChild
        simp only [hfoc]
      rw [hL]
      refine ⟨q, ?_, hgen.trans hg⟩
      rw [findPerson_eq_of_persons pid0 (RA_linkChildResolved_persons par cid cd url db1)]
      exact hq
  · intro par cd url
    obtain ⟨q, hq, hgen, _⟩ := GA_foc_keeps cd.name cd.wikidata_id db pid0 p hf
    rcases hfoc : GenesisAgent.findOrCreate cd.name cd.wikidata_id db with ⟨opid, db1⟩
    rw [hfoc] at hq
    rcases opid with _ | cid
    · have hL : GenesisAgent.linkChild par cd url db = db1 := by
        unfold GenesisAgent.linkChild
        simp only [hfoc]
      rw [hL]
      exact ⟨q, hq, hgen.trans hg⟩
    · have hL : GenesisAgent.linkChild par cd url db
          = GenesisAgent.linkChildResolved par cid cd url db1 := by
        unfold GenesisAgent.linkChild
        simp only [hfoc]
      rw [hL]
      refine ⟨q, ?_, hgen.trans hg⟩
      rw [findPerson_eq_of_persons pid0 (GA_linkChildResolved_persons par cid cd url db1)]
      exact hq
  · intro c pd pt url hcond
    obtain ⟨q, hq, hgen, _⟩ := RA_foc_keeps pd.name pd.wikidata_id db pid0 p hf
    rcases hfoc : ResearchAgent.findOrCreate pd.name pd.wikidata_id db with ⟨opid, db1⟩
    rw [hfoc] at hq
    rcases opid with _ | pid
    · have hL : ResearchAgent.linkParent c pd pt url db = db1 := by
        unfold ResearchAgent.linkParent
        simp only [hfoc]
      rw [hL]
      exact ⟨q, hq, hgen.trans hg⟩
    · have hL : ResearchAgent.linkParent c pd pt url db
          = ResearchAgent.linkParentResolved c pid pd pt url db1 := by
        unfold ResearchAgent.linkParent
        simp only [hfoc]
      rw [hL]
      unfold ResearchAgent.linkParentResolved
      split
      · exact ⟨q, hq, hgen.trans hg⟩
      · refine ⟨q, ?_, hgen.trans hg⟩
        rw [RA_upsert_findPerson_other hcond]
        exact hq
  · intro c pd pt url hcond
    obtain ⟨q, hq, hgen, _⟩ := GA_foc_keeps pd.name pd.wikidata_id db pid0 p hf
    rcases hfoc : GenesisAgent.findOrCreate pd.name pd.wikidata_id db with ⟨opid, db1⟩
    rw [hfoc] at hq
    rcases opid with _ | pid
    · have hL : GenesisAgent.linkParent c pd pt url db = db1 := by
        unfold GenesisAgent.linkParent
        simp only [hfoc]
      rw [hL]
      exact ⟨q, hq, hgen.trans hg⟩
    · have hL : GenesisAgent.linkParent c pd pt url db
          = GenesisAgent.linkParentResolved c pid pd pt url db1 := by
        unfold GenesisAgent.linkParent
        simp only [hfoc]
      rw [hL]
      unfold GenesisAgent.linkParentResolved
      split
      · exact ⟨q, hq, hgen.trans hg⟩
      · split
        · refine ⟨q, ?_, hgen.trans hg⟩
          rw [GA_upsert_findPerson_other hcond]
          exact hq
        · split
          · refine ⟨q, ?_, hgen.trans hg⟩
            rw [GA_upsert_findPerson_other hcond,
                findPerson_eq_of_persons pid0 (persons_demoteRel _ _)]
            exact hq
          · refine ⟨q, ?_, hgen.trans hg⟩
            rw [GA_upsert_findPerson_other hcond]
            exact hq

theorem c1_amended_genesis_clearing_witness :
    (∃ q, findPerson
        (ResearchAgent.linkParent 1 ⟨"Beta", none, 90⟩ "father" none genesisAlphaDB) 1
          = some q ∧ q.is_genesis = true) ∧
    (∃ q, findPerson (GenesisAgent.linkChild 1 ⟨"Beta", none, 88⟩ none genesisAlphaDB) 1
          = some q ∧ q.is_genesis = true) := by
  have h := c1_amended_genesis_clearing genesisAlphaDB 1
    ⟨1, "Alpha", "human", none, none, true, some "G1", false⟩ (by decide) (by decide)
  exact ⟨h.2.2.1 1 ⟨"Beta", none, 90⟩ "father" none (Or.inr (by decide)),
         h.2.1 1 ⟨"Beta", none, 88⟩ none⟩

/-- Claim C2 as stated is false: after seeding Noah, a research pass gives
Noah a primary father edge to Felix, Felix one to Gamma, and researching Gamma
reports Noah as a child, whereupon link_child inserts a second primary father
edge for Noah without demoting or checking the first. -/
theorem c2_counterexample : ¬ claimC2 := by
  intro h
  have h1 : Reachable seedNoahState :=
    Reachable.step Reachable.init (Step.raRefill initSys (by decide))
  have h2 : Reachable twoPrimaryS2 :=
    Reachable.step h1
      (Step.raLinkParent 1 ⟨"Felix", none, 92⟩ "father" none seedNoahState (by decide))
  have h3 : Reachable twoPrimaryS3 :=
    Reachable.step h2
      (Step.raLinkParent 2 ⟨"Gamma", none, 92⟩ "father" none twoPrimaryS2 (by decide))
  have h4 : Reachable twoPrimaryS4 :=
    Reachable.step h3
      (Step.raLinkChild 3 ⟨"Noah", none, 88⟩ none twoPrimaryS3 (by decide))
  exact absurd (h twoPrimaryS4 h4 1 "father") (by decide)

theorem countP_le_one_unique {α : Type} {l : List α} {p : α → Bool} (h : l.countP p ≤ 1)
    {a b : α} (ha : a ∈ l) (hb : b ∈ l) (hpa : p a = true) (hpb : p b = true) : a = b := by
  induction l with
  | nil => cases ha
  | cons x xs ih =>
      rw [List.countP_cons] at h
      rcases List.mem_cons.mp ha with rfl | ha2
      · rcases List.mem_cons.mp hb with rfl | hb2
        · rfl
        · exfalso
          rw [if_pos hpa] at h
          have h0 : xs.countP p = 0 := by omega
          exact absurd hpb ((List.countP_eq_zero.mp h0) b hb2)
      · rcases List.mem_cons.mp hb with rfl | hb2
        · exfalso
          rw [if_pos hpb] at h
          have h0 : xs.countP p = 0 := by omega
          exact absurd hpa ((List.countP_eq_zero.mp h0) a ha2)
        · exact ih (by omega) ha2 hb2

theorem primCount_eq_of_rels {dbA dbB : DB} (c : Nat) (t : String)
    (h : dbA.relationships = dbB.relationships) : primCount dbA c t = primCount dbB c t := by
  unfold primCount; rw [h]

theorem primCount_update (rid : Nat) (conf : Rat) (db : DB) (c' : Nat) (t' : String) :
    primCount (updateRelConfidence rid conf db) c' t' = primCount db c' t' := by
  unfold primCount updateRelConfidence
  dsimp only
  rw [List.countP_map]
  apply List.countP_congr
  intro r _
  simp only [Function.comp_apply]
  by_cases hr : (r.id == rid) = true
  · rw [if_pos hr]
  · rw [if_neg hr]

theorem primCount_insert (c2 p2 : Nat) (t2 : String) (conf : Rat) (prim br : Bool)
    (db : DB) (c' : Nat) (t' : String) :
    primCount (insertRel c2 p2 t2 conf prim br db).2 c' t'
      = primCount db c' t' + (if ((c2 == c') && (t2 == t') && prim) = true then 1 else 0) := by
  unfold primCount insertRel
  dsimp only
  rw [List.countP_append, List.countP_singleton]

theorem primCount_demote_le (rid : Nat) (db : DB) (c' : Nat) (t' : String) :
    primCount (demoteRel rid db) c' t' ≤ primCount db c' t' := by
  unfold primCount demoteRel
  dsimp only
  rw [List.countP_map]
  apply List.countP_mono_left
  intro r _ hr
  simp only [Function.comp_apply] at hr
  by_cases hid : (r.id == rid) = true
  · rw [if_pos hid] at hr
    simp at hr
  · rwa [if_neg hid] at hr

theorem findPrimary_none_count_zero {db : DB} {c : Nat} {t : String}
    (h : findPrimary db c t = none) : primCount db c t = 0 := by
  unfold findPrimary at h
  unfold primCount
  exact List.countP_eq_zero.mpr (List.find?_eq_none.mp h)

theorem primCount_demote_found_zero {db : DB} {c : Nat} {t : String} {e : Relationship}
    (hA : primCount db c t ≤ 1) (hfp : findPrimary db c t = some e) :
    primCount (demoteRel e.id db) c t = 0 := by
  have hfp2 : db.relationships.find?
      (fun r => r.child_id == c && r.parent_type == t && r.is_primary) = some e := hfp
  have hmem : e ∈ db.relationships := List.mem_of_find?_eq_some hfp2
  have hpe := List.find?_some hfp2
  have hA2 : db.relationships.countP
      (fun r => r.child_id == c && r.parent_type == t && r.is_primary) ≤ 1 := hA
  unfold primCount demoteRel
  dsimp only
  rw [List.countP_map]
  apply List.countP_eq_zero.mpr
  intro r hr
  simp only [Function.comp_apply]
  by_cases hid : (r.id == e.id) = true
  · rw [if_pos hid]
    simp
  · rw [if_neg hid]
    intro hcontra
    have hre : r = e := countP_le_one_unique hA2 hr hmem hcontra hpe
    rw [hre] at hid
    simp at hid

theorem RA_upsert_rels_update {c pid : Nat} {pd : Candidate} {pt : String}
    {url : Option String} {prim : Bool} {db1 : DB} {e : Relationship}
    (hrel : findRel db1 c pid pt = some e) :
    (ResearchAgent.linkParentUpsert c pid pd pt url prim db1).relationships
      = (updateRelConfidence e.id pd.confidence db1).relationships := by
  unfold ResearchAgent.linkParentUpsert
  simp only [hrel]
  rcases url with _ | u <;> simp

theorem RA_upsert_rels_insert {c pid : Nat} {pd : Candidate} {pt : String}
    {url : Option String} {prim : Bool} {db1 : DB}
    (hrel : findRel db1 c pid pt = none) :
    (ResearchAgent.linkParentUpsert c pid pd pt url prim db1).relationships
      = (insertRel c pid pt pd.confidence prim (!prim) db1).2.relationships := by
  unfold ResearchAgent.linkParentUpsert
  simp only [hrel]
  rcases url with _ | u <;> simp

theorem GA_upsert_rels_update {c pid : Nat} {pd : Candidate} {pt : String}
    {url : Option String} {prim : Bool} {db1 : DB} {e : Relationship}
    (hrel : findRel db1 c pid pt = some e) :
    (GenesisAgent.linkParentUpsert c pid pd pt url prim db1).relationships
      = (updateRelConfidence e.id pd.confidence db1).relationships := by
  unfold GenesisAgent.linkParentUpsert
  simp only [hrel]
  rcases url with _ | u <;> simp

theorem GA_upsert_rels_insert {c pid : Nat} {pd : Candidate} {pt : String}
    {url : Option String} {prim : Bool} {db1 : DB}
    (hrel : findRel db1 c pid pt = none) :
    (GenesisAgent.linkParentUpsert c pid pd pt url prim db1).relationships
      = (insertRel c pid pt pd.confidence prim (!prim) db1).2.relationships := by
  unfold GenesisAgent.linkParentUpsert
  simp only [hrel]
  rcases url with _ | u <;> simp

theorem RA_upsert_atMostOne (c pid : Nat) (pd : Candidate) (pt : String)
    (url : Option String) (prim : Bool) (db1 : DB) (hA : AtMostOnePrimary db1)
    (hz : prim = true → primCount db1 c pt = 0) :
    AtMostOnePrimary (ResearchAgent.linkParentUpsert c pid pd pt url prim db1) := by
  intro c' t'
  rcases hrel : findRel db1 c pid pt with _ | e
  · rw [primCount_eq_of_rels c' t' (RA_upsert_rels_insert hrel), primCount_insert]
    by_cases hct : ((c == c') && (pt == t')) = true
    · have hct2 : c = c' ∧ pt = t' := by simpa using hct
      obtain ⟨hc2, ht2⟩ := hct2
      subst hc2
      subst ht2
      rcases prim with _ | _
      · rw [show ((c == c) && (pt == pt) && false) = false from by simp]
        simpa using hA c pt
      · rw [hz rfl, show ((c == c) && (pt == pt) && true) = true from by simp]
        simp
    · have hf : ((c == c') && (pt == t')) = false := Bool.eq_false_iff.mpr hct
      rw [show ((c == c') && (pt == t') && prim) = false from by rw [hf, Bool.false_and]]
      simpa using hA c' t'
  · rw [primCount_eq_of_rels c' t' (RA_upsert_rels_update hrel), primCount_update]
    exact hA c' t'

theorem GA_upsert_atMostOne (c pid : Nat) (pd : Candidate) (pt : String)
    (url : Option String) (prim : Bool) (db1 : DB) (hA : AtMostOnePrimary db1)
    (hz : prim = true → primCount db1 c pt = 0) :
    AtMostOnePrimary (GenesisAgent.linkParentUpsert c pid pd pt url prim db1) := by
  intro c' t'
  rcases hrel : findRel db1 c pid pt with _ | e
  · rw [primCount_eq_of_rels c' t' (GA_upsert_rels_insert hrel), primCount_insert]
    by_cases hct : ((c == c') && (pt == t')) = true
    · have hct2 : c = c' ∧ pt = t' := by simpa using hct
      obtain ⟨hc2, ht2⟩ := hct2
      subst hc2
      subst ht2
      rcases prim with _ | _
      · rw [show ((c == c) && (pt == pt) && false) = false from by simp]
        simpa using hA c pt
      · rw [hz rfl, show ((c == c) && (pt == pt) && true) = true from by simp]
        simp
    · have hf : ((c == c') && (pt == t')) = false := Bool.eq_false_iff.mpr hct
      rw [show ((c == c') && (pt == t') && prim) = false from by rw [hf, Bool.false_and]]
      simpa using hA c' t'
  · rw [primCount_eq_of_rels c' t' (GA_upsert_rels_update hrel), primCount_update]
    exact hA c' t'

theorem RA_linkParent_atMostOne (c : Nat) (pd : Candidate) (pt : String)
    (url : Option String) (db : DB) (hA : AtMostOnePrimary db) :
    AtMostOnePrimary (ResearchAgent.linkParent c pd pt url db) := by
  rcases hfoc : ResearchAgent.findOrCreate pd.name pd.wikidata_id db with ⟨opid, db1⟩
  have hA1 : AtMostOnePrimary db1 := by
    intro c' t'
    have hrels : db1.relationships = db.relationships := by
      have h0 := RA_foc_rels pd.name pd.wikidata_id db
      rw [hfoc] at h0
      exact h0
    rw [primCount_eq_of_rels c' t' hrels]
    exact hA c' t'
  rcases opid with _ | pid
  · have hL : ResearchAgent.linkParent c pd pt url db = db1 := by
      unfold ResearchAgent.linkParent
      simp only [hfoc]
    rw [hL]
    exact hA1
  · have hL : ResearchAgent.linkParent c pd pt url db
        = ResearchAgent.linkParentResolved c pid pd pt url db1 := by
      unfold ResearchAgent.linkParent
      simp only [hfoc]
    rw [hL]
    unfold ResearchAgent.linkParentResolved
    split
    · exact hA1
    · rcases hfp : findPrimary db1 c pt with _ | e
      · exact RA_upsert_atMostOne c pid pd pt url _ db1 hA1
          (fun _ => findPrimary_none_count_zero hfp)
      · exact RA_upsert_atMostOne c pid pd pt url _ db1 hA1
          (fun hcontra => absurd hcontra (by simp))

theorem GA_linkParent_atMostOne (c : Nat) (pd : Candidate) (pt : String)
    (url : Option String) (db : DB) (hA : AtMostOnePrimary db) :
    AtMostOnePrimary (GenesisAgent.linkParent c pd pt url db) := by
  rcases hfoc : GenesisAgent.findOrCreate pd.name pd.wikidata_id db with ⟨opid, db1⟩
  have hA1 : AtMostOnePrimary db1 := by
    intro c' t'
    have hrels : db1.relationships = db.relationships := by
      have h0 := GA_foc_rels pd.name pd.wikidata_id db
      rw [hfoc] at h0
      exact h0
    rw [primCount_eq_of_rels c' t' hrels]
    exact hA c' t'
  rcases opid with _ | pid
  · have hL : GenesisAgent.linkParent c pd pt url db = db1 := by
      unfold GenesisAgent.linkParent
      simp only [hfoc]
    rw [hL]
    exact hA1
  · have hL : GenesisAgent.linkParent c pd pt url db
        = GenesisAgent.linkParentResolved c pid pd pt url db1 := by
      unfold GenesisAgent.linkParent
      simp only [hfoc]
    rw [hL]
    unfold GenesisAgent.linkParentResolved
    split
    · exact hA1
    · split
      · rename_i hfp
        exact GA_upsert_atMostOne c pid pd pt url true db1 hA1
          (fun _ => findPrimary_none_count_zero hfp)
      · rename_i e hfp
        split
        · have hAd : AtMostOnePrimary (demoteRel e.id db1) := by
            intro c' t'
            exact le_trans (primCount_demote_le e.id db1 c' t') (hA1 c' t')
          exact GA_upsert_atMostOne c pid pd pt url true (demoteRel e.id db1) hAd
            (fun _ => primCount_demote_found_zero (hA1 c pt) hfp)
        · exact GA_upsert_atMostOne c pid pd pt url false db1 hA1
            (fun hcontra => by cases hcontra)

/-- Claim C2 amended: the at-most-one-primary invariant per (child_id,
parent_type) pair is preserved by link_parent in both writer variants;
link_child (the violation shown in the counterexample) is excluded. -/
theorem c2_amended_linkParent_primary (db : DB) (hA : AtMostOnePrimary db) :
    (∀ c pd pt url, AtMostOnePrimary (ResearchAgent.linkParent c pd pt url db)) ∧
    (∀ c pd pt url, AtMostOnePrimary (GenesisAgent.linkParent c pd pt url db)) :=
  ⟨fun c pd pt url => RA_linkParent_atMostOne c pd pt url db hA,
   fun c pd pt url => GA_linkParent_atMostOne c pd pt url db hA⟩

theorem c2_amended_linkParent_primary_witness :
    AtMostOnePrimary
        (ResearchAgent.linkParent 1 ⟨"Beta", none, 96⟩ "father" none genesisAlphaDB) ∧
    AtMostOnePrimary
        (GenesisAgent.linkParent 1 ⟨"Beta", none, 96⟩ "father" none genesisAlphaDB) := by
  have h := c2_amended_linkParent_primary genesisAlphaDB (fun c t => Nat.zero_le 1)
  exact ⟨h.1 1 ⟨"Beta", none, 96⟩ "father" none, h.2 1 ⟨"Beta", none, 96⟩ "father" none⟩

/-- Claim C5 as stated is false at a concrete input: child Alpha holds a
primary father edge to Beta at confidence 80 and a branch father edge to Gamma
at 70; a new Gamma claim at confidence 90 demotes the Beta edge but, because
the (Alpha,Gamma,father) row already exists, only its confidence is updated
and it is never promoted, leaving no primary edge at all. -/
theorem c5_counterexample : ¬ claimC5 := by
  intro h
  have h2 := (h branchPairDB 1 ⟨"Gamma", none, 90⟩ "father" none 3
      ⟨1, 1, 2, "father", 80, true, false⟩ (by decide) (by decide) (by decide)).1 (by decide)
  exact absurd h2.2 (by decide)

theorem GA_foc_nextRel (n : String) (w : Option String) (db : DB) :
    (GenesisAgent.findOrCreate n w db).2.next_rel_id = db.next_rel_id := by
  unfold GenesisAgent.findOrCreate
  split <;> first
  | rfl
  | (split <;> first
      | rfl
      | (split <;> rfl))

theorem ite_demote_id (rid : Nat) (r : Relationship) :
    (if (r.id == rid) = true
        then { r with is_primary := false, is_branch := true } else r).id = r.id := by
  by_cases h : (r.id == rid) = true <;> simp [h]

theorem ite_update_id (rid : Nat) (conf : Rat) (r : Relationship) :
    (if (r.id == rid) = true then { r with confidence := conf } else r).id = r.id := by
  by_cases h : (r.id == rid) = true <;> simp [h]

theorem ite_update_primary (rid : Nat) (conf : Rat) (r : Relationship) :
    (if (r.id == rid) = true then { r with confidence := conf } else r).is_primary
      = r.is_primary := by
  by_cases h : (r.id == rid) = true <;> simp [h]

theorem ite_update_branch (rid : Nat) (conf : Rat) (r : Relationship) :
    (if (r.id == rid) = true then { r with confidence := conf } else r).is_branch
      = r.is_branch := by
  by_cases h : (r.id == rid) = true <;> simp [h]

theorem findRel_demote (rid c p : Nat) (t : String) (db : DB) :
    findRel (demoteRel rid db) c p t
      = (findRel db c p t).map
          (fun r => if r.id == rid then { r with is_primary := false, is_branch := true }
                    else r) := by
  unfold findRel demoteRel
  dsimp only
  rw [List.find?_map]
  exact congrArg (Option.map _)
    (find?_congr_on (fun r _ => by
      simp only [Function.comp_apply]
      by_cases h : (r.id == rid) = true
      · rw [if_pos h]
      · rw [if_neg h]))

/-- Claim C5 amended: with an existing primary edge e for (child, parent_type),
GenesisAgent link_parent behaves as follows. If the incoming confidence is
strictly higher, e is demoted to a branch; the incoming claim is inserted as
the new primary only when no (child,parent,type) row existed; when such a row
already exists, only its confidence is updated and it keeps the primary and
branch flags already stored (so it is not promoted). If the incoming
confidence is not strictly higher, a fresh row is inserted as a non-primary
branch, and an existing row keeps its stored flags with only the confidence
updated. -/
theorem c5_amended_demote_promote (db : DB) (c : Nat) (pd : Candidate) (pt : String)
    (url : Option String) (pid : Nat) (e : Relationship)
    (hfresh : ∀ r ∈ db.relationships, r.id < db.next_rel_id)
    (h1 : (GenesisAgent.findOrCreate pd.name pd.wikidata_id db).1 = some pid)
    (h2 : pid ≠ c)
    (hfp : findPrimary (GenesisAgent.findOrCreate pd.name pd.wikidata_id db).2 c pt
        = some e) :
    (e.confidence < pd.confidence →
       findRel (GenesisAgent.findOrCreate pd.name pd.wikidata_id db).2 c pid pt = none →
       (∀ r ∈ (GenesisAgent.linkParent c pd pt url db).relationships, r.id = e.id →
          r.is_primary = false ∧ r.is_branch = true) ∧
       (∃ r ∈ (GenesisAgent.linkParent c pd pt url db).relationships,
          r.child_id = c ∧ r.parent_id = pid ∧ r.parent_type = pt ∧
          r.confidence = pd.confidence ∧ r.is_primary = true ∧ r.is_branch = false)) ∧
    (e.confidence < pd.confidence →
       ∀ r0, findRel (GenesisAgent.findOrCreate pd.name pd.wikidata_id db).2 c pid pt
           = some r0 →
       (∀ r ∈ (GenesisAgent.linkParent c pd pt url db).relationships, r.id = e.id →
          r.is_primary = false ∧ r.is_branch = true) ∧
       (∀ r ∈ (GenesisAgent.linkParent c pd pt url db).relationships, r.id = r0.id →
          r.id ≠ e.id →
          r.confidence = pd.confidence ∧
          ∃ r1 ∈ (GenesisAgent.findOrCreate pd.name pd.wikidata_id db).2.relationships,
            r1.id = r.id ∧ r.is_primary = r1.is_primary ∧ r.is_branch = r1.is_branch)) ∧
    (¬ e.confidence < pd.confidence →
       findRel (GenesisAgent.findOrCreate pd.name pd.wikidata_id db).2 c pid pt = none →
       ∃ r ∈ (GenesisAgent.linkParent c pd pt url db).relationships,
         r.child_id = c ∧ r.parent_id = pid ∧ r.parent_type = pt ∧
         r.confidence = pd.confidence ∧ r.is_primary = false ∧ r.is_branch = true) ∧
    (¬ e.confidence < pd.confidence →
       ∀ r0, findRel (GenesisAgent.findOrCreate pd.name pd.wikidata_id db).2 c pid pt
           = some r0 →
       ∀ r ∈ (GenesisAgent.linkParent c pd pt url db).relationships, r.id = r0.id →
         r.confidence = pd.confidence ∧
         ∃ r1 ∈ (GenesisAgent.findOrCreate pd.name pd.wikidata_id db).2.relationships,
           r1.id = r.id ∧ r.is_primary = r1.is_primary ∧ r.is_branch = r1.is_branch) := by
  rw [GA_linkParent_eq c pt url h1]
  unfold GenesisAgent.linkParentResolved
  rw [if_neg (by simpa using h2), hfp]
  dsimp only
  have hrelsF : (GenesisAgent.findOrCreate pd.name pd.wikidata_id db).2.relationships
      = db.relationships := GA_foc_rels _ _ _
  have hnextF := GA_foc_nextRel pd.name pd.wikidata_id db
  have hfp2 : (GenesisAgent.findOrCreate pd.name pd.wikidata_id db).2.relationships.find?
      (fun r => r.child_id == c && r.parent_type == pt && r.is_primary) = some e := hfp
  have heMem : e ∈ (GenesisAgent.findOrCreate pd.name pd.wikidata_id db).2.relationships :=
    List.mem_of_find?_eq_some hfp2
  have heFresh : e.id < (GenesisAgent.findOrCreate pd.name pd.wikidata_id db).2.next_rel_id := by
    rw [hrelsF] at heMem
    rw [hnextF]
    exact hfresh e heMem
  refine ⟨?_, ?_, ?_, ?_⟩
  · intro hlt hrel
    rw [if_pos hlt]
    have hreld : findRel
        (demoteRel e.id (GenesisAgent.findOrCreate pd.name pd.wikidata_id db).2) c pid pt
          = none := by
      rw [findRel_demote, hrel]
      rfl
    rw [GA_upsert_rels_insert hreld]
    unfold insertRel demoteRel
    dsimp only
    constructor
    · intro r hr hid
      rcases List.mem_append.mp hr with hr1 | hr2
      · obtain ⟨r1, hr1m, rfl⟩ := List.mem_map.mp hr1
        by_cases hi : (r1.id == e.id) = true
        · rw [if_pos hi]
          exact ⟨rfl, rfl⟩
        · rw [if_neg hi] at hid ⊢
          exact absurd (by simp [hid]) hi
      · exfalso
        rw [List.mem_singleton] at hr2
        subst hr2
        have hid2 : (GenesisAgent.findOrCreate pd.name pd.wikidata_id db).2.next_rel_id
            = e.id := hid
        omega
    · refine ⟨_, List.mem_append_right _ (List.mem_singleton.mpr rfl),
        rfl, rfl, rfl, rfl, rfl, rfl⟩
  · intro hlt r0 hrel
    rw [if_pos hlt]
    have hreld : findRel
        (demoteRel e.id (GenesisAgent.findOrCreate pd.name pd.wikidata_id db).2) c pid pt
          = some (if (r0.id == e.id) = true
                  then { r0 with is_primary := false, is_branch := true } else r0) := by
      rw [findRel_demote, hrel]
      rfl
    rw [GA_upsert_rels_update hreld, ite_demote_id]
    unfold updateRelConfidence demoteRel
    dsimp only
    constructor
    · intro r hr hid
      obtain ⟨rm, hrm, rfl⟩ := List.mem_map.mp hr
      obtain ⟨r1, hr1, rfl⟩ := List.mem_map.mp hrm
      by_cases hi : (r1.id == e.id) = true
      · rw [if_pos hi]
        by_cases hu : (({ r1 with is_primary := false, is_branch := true }
            : Relationship).id == r0.id) = true
        · rw [if_pos hu]
          exact ⟨rfl, rfl⟩
        · rw [if_neg hu]
          exact ⟨rfl, rfl⟩
      · rw [if_neg hi] at hid ⊢
        rw [ite_update_id] at hid
        exact absurd (by simp [hid]) hi
    · intro r hr hid hne
      obtain ⟨rm, hrm, rfl⟩ := List.mem_map.mp hr
      obtain ⟨r1, hr1, rfl⟩ := List.mem_map.mp hrm
      by_cases hi : (r1.id == e.id) = true
      · exfalso
        apply hne
        rw [ite_update_id, ite_demote_id]
        simpa using hi
      · rw [if_neg hi] at hid ⊢
        rw [ite_update_id] at hid
        have hcond : (r1.id == r0.id) = true := by simp [hid]
        rw [if_pos hcond]
        exact ⟨rfl, r1, hr1, rfl, rfl, rfl⟩
  · intro hnlt hrel
    rw [if_neg hnlt]
    rw [GA_upsert_rels_insert hrel]
    unfold insertRel
    dsimp only
    refine ⟨_, List.mem_append_right _ (List.mem_singleton.mpr rfl),
      rfl, rfl, rfl, rfl, rfl, rfl⟩
  · intro hnlt r0 hrel
    rw [if_neg hnlt]
    rw [GA_upsert_rels_update hrel]
    unfold updateRelConfidence
    dsimp only
    intro r hr hid
    obtain ⟨r1, hr1, rfl⟩ := List.mem_map.mp hr
    rw [ite_update_id] at hid
    have hcond : (r1.id == r0.id) = true := by simp [hid]
    rw [if_pos hcond]
    exact ⟨rfl, r1, hr1, rfl, rfl, rfl⟩

theorem c5_amended_demote_promote_witness :
    ({ id := 1, child_id := 1, parent_id := 2, parent_type := "father",
       confidence := 80, is_primary := false, is_branch := true }
        : Relationship).is_primary = false ∧
    ({ id := 1, child_id := 1, parent_id := 2, parent_type := "father",
       confidence := 80, is_primary := false, is_branch := true }
        : Relationship).is_branch = true :=
  ((c5_amended_demote_promote branchPairDB 1 ⟨"Gamma", none, 90⟩ "father" none 3
      ⟨1, 1, 2, "father", 80, true, false⟩ (by decide) (by decide) (by decide)
      (by decide)).2.1 (by decide) ⟨2, 1, 3, "father", 70, false, true⟩ (by decide)).1
    ⟨1, 1, 2, "father", 80, false, true⟩ (by decide) (by decide)

/-- Claim C6: the merge engine adjusts an incoming father or mother candidate
by the offset, clamps the result at 99, and replaces the accumulated candidate
exactly when the slot is empty or the adjusted confidence is strictly greater;
in particular two father candidates at confidences 90 and 85 (at offset 0, or
with the 85 at offset -5) leave the 90 candidate in the accumulator in either
merge order. -/
theorem c6_merge_replacement :
    (∀ t s : Discovery, ∀ off : Rat, ∀ f, s.father = some f →
        (mergeDiscovery t s off).father =
          match t.father with
          | none => some (adjust f off)
          | some g => if g.confidence < (adjust f off).confidence
                      then some (adjust f off) else some g) ∧
    (∀ t s : Discovery, ∀ off : Rat, ∀ m, s.mother = some m →
        (mergeDiscovery t s off).mother =
          match t.mother with
          | none => some (adjust m off)
          | some g => if g.confidence < (adjust m off).confidence
                      then some (adjust m off) else some g) ∧
    (∀ cand : Candidate, ∀ off : Rat, (adjust cand off).confidence ≤ 99) ∧
    (mergeDiscovery (mergeDiscovery emptyDisc (fatherDisc "A" 90) 0)
        (fatherDisc "B" 85) 0).father = some ⟨"A", none, 90⟩ ∧
    (mergeDiscovery (mergeDiscovery emptyDisc (fatherDisc "B" 85) 0)
        (fatherDisc "A" 90) 0).father = some ⟨"A", none, 90⟩ ∧
    (mergeDiscovery (mergeDiscovery emptyDisc (fatherDisc "A" 90) 0)
        (fatherDisc "B" 85) (-5)).father = some ⟨"A", none, 90⟩ ∧
    (mergeDiscovery (mergeDiscovery emptyDisc (fatherDisc "B" 85) (-5))
        (fatherDisc "A" 90) 0).father = some ⟨"A", none, 90⟩ := by
  have hconc : ∀ bconf boff : Rat, bconf + boff < 90 →
      (mergeDiscovery (mergeDiscovery emptyDisc (fatherDisc "A" 90) 0)
          (fatherDisc "B" bconf) boff).father = some ⟨"A", none, 90⟩ ∧
      (mergeDiscovery (mergeDiscovery emptyDisc (fatherDisc "B" bconf) boff)
          (fatherDisc "A" 90) 0).father = some ⟨"A", none, 90⟩ := by
    intro bconf boff hb
    constructor
    · simp only [mergeDiscovery, mergeParent, emptyDisc, fatherDisc, adjust]
      norm_num
      intro hcontra
      exact absurd hcontra (by linarith)
    · simp only [mergeDiscovery, mergeParent, emptyDisc, fatherDisc, adjust]
      norm_num
      intro hcontra
      exact absurd hcontra (by linarith)
  refine ⟨?_, ?_, ?_, ?_, ?_, ?_, ?_⟩
  · intro t s off f hs
    unfold mergeDiscovery mergeParent
    rw [hs]
  · intro t s off m hs
    unfold mergeDiscovery mergeParent
    rw [hs]
  · intro cand off
    exact min_le_left 99 _
  · exact (hconc 85 0 (by norm_num)).1
  · exact (hconc 85 0 (by norm_num)).2
  · exact (hconc 85 (-5) (by norm_num)).1
  · exact (hconc 85 (-5) (by norm_num)).2

theorem c6_merge_replacement_witness :
    (mergeDiscovery emptyDisc (fatherDisc "A" 90) 0).father =
      match emptyDisc.father with
      | none => some (adjust ⟨"A", none, 90⟩ 0)
      | some g => if g.confidence < (adjust ⟨"A", none, 90⟩ 0).confidence
                  then some (adjust ⟨"A", none, 90⟩ 0) else some g :=
  c6_merge_replacement.1 emptyDisc (fatherDisc "A" 90) 0 ⟨"A", none, 90⟩ (by decide)

/-- Claim C8 evidence: on the same fresh store, ResearchAgent find_or_create
creates the new person with is_genesis false and no code, as the claim and the
spec state, while GenesisAgent find_or_create creates it with is_genesis true
and a fresh sequential genesis code (the eager genesis assignment the spec
marks as a superseded bug). -/
theorem c8_find_or_create_genesis_flag :
    ((ResearchAgent.findOrCreate "Alpha" none initSys.db).2.persons.map
        (fun p => (p.name, p.is_genesis, p.genesis_code)))
      = [("Alpha", false, none)] ∧
    ((GenesisAgent.findOrCreate "Alpha" none initSys.db).2.persons.map
        (fun p => (p.name, p.is_genesis, p.genesis_code)))
      = [("Alpha", true, some "G1")] := by
  constructor <;> decide

theorem NoSelfEdge_of_rels {dbA dbB : DB}
    (h : dbA.relationships = dbB.relationships) (hns : NoSelfEdge dbB) : NoSelfEdge dbA := by
  unfold NoSelfEdge at hns ⊢
  rw [h]
  exact hns

theorem noSelf_update (rid : Nat) (conf : Rat) {db : DB} (hns : NoSelfEdge db) :
    NoSelfEdge (updateRelConfidence rid conf db) := by
  intro r hr
  unfold updateRelConfidence at hr
  dsimp only at hr
  obtain ⟨r1, hr1, rfl⟩ := List.mem_map.mp hr
  by_cases hi : (r1.id == rid) = true
  · rw [if_pos hi]
    exact hns r1 hr1
  · rw [if_neg hi]
    exact hns r1 hr1

theorem noSelf_demote (rid : Nat) {db : DB} (hns : NoSelfEdge db) :
    NoSelfEdge (demoteRel rid db) := by
  intro r hr
  unfold demoteRel at hr
  dsimp only at hr
  obtain ⟨r1, hr1, rfl⟩ := List.mem_map.mp hr
  by_cases hi : (r1.id == rid) = true
  · rw [if_pos hi]
    exact hns r1 hr1
  · rw [if_neg hi]
    exact hns r1 hr1

theorem noSelf_insert (c p : Nat) (t : String) (conf : Rat) (prim br : Bool) {db : DB}
    (hns : NoSelfEdge db) (hne : c ≠ p) :
    NoSelfEdge (insertRel c p t conf prim br db).2 := by
  intro r hr
  unfold insertRel at hr
  dsimp only at hr
  rcases List.mem_append.mp hr with hr1 | hr2
  · exact hns r hr1
  · rw [List.mem_singleton] at hr2
    subst hr2
    exact hne

theorem RA_upsert_noSelf {c pid : Nat} {pd : Candidate} {pt : String} {url : Option String}
    {prim : Bool} {db1 : DB} (hns : NoSelfEdge db1) (hne : c ≠ pid) :
    NoSelfEdge (ResearchAgent.linkParentUpsert c pid pd pt url prim db1) := by
  rcases hrel : findRel db1 c pid pt with _ | e
  · exact NoSelfEdge_of_rels (RA_upsert_rels_insert hrel)
      (noSelf_insert c pid pt pd.confidence prim (!prim) hns hne)
  · exact NoSelfEdge_of_rels (RA_upsert_rels_update hrel)
      (noSelf_update e.id pd.confidence hns)

theorem GA_upsert_noSelf {c pid : Nat} {pd : Candidate} {pt : String} {url : Option String}
    {prim : Bool} {db1 : DB} (hns : NoSelfEdge db1) (hne : c ≠ pid) :
    NoSelfEdge (GenesisAgent.linkParentUpsert c pid pd pt url prim db1) := by
  rcases hrel : findRel db1 c pid pt with _ | e
  · exact NoSelfEdge_of_rels (GA_upsert_rels_insert hrel)
      (noSelf_insert c pid pt pd.confidence prim (!prim) hns hne)
  · exact NoSelfEdge_of_rels (GA_upsert_rels_update hrel)
      (noSelf_update e.id pd.confidence hns)

theorem RA_linkChild_eq {cd : Candidate} {db : DB} {cid : Nat} (par : Nat)
    (url : Option String)
    (h1 : (ResearchAgent.findOrCreate cd.name cd.wikidata_id db).1 = some cid) :
    ResearchAgent.linkChild par cd url db
      = ResearchAgent.linkChildResolved par cid cd url
          (ResearchAgent.findOrCreate cd.name cd.wikidata_id db).2 := by
  unfold ResearchAgent.linkChild
  simp only [h1]

theorem GA_linkChild_eq {cd : Candidate} {db : DB} {cid : Nat} (par : Nat)
    (url : Option String)
    (h1 : (GenesisAgent.findOrCreate cd.name cd.wikidata_id db).1 = some cid) :
    GenesisAgent.linkChild par cd url db
      = GenesisAgent.linkChildResolved par cid cd url
          (GenesisAgent.findOrCreate cd.name cd.wikidata_id db).2 := by
  unfold GenesisAgent.linkChild
  simp only [h1]

theorem RA_linkChildResolved_noSelf {par cid : Nat} {cd : Candidate} {url : Option String}
    {db1 : DB} (hns : NoSelfEdge db1) :
    NoSelfEdge (ResearchAgent.linkChildResolved par cid cd url db1) := by
  unfold ResearchAgent.linkChildResolved
  split
  · exact hns
  · rename_i hne
    apply NoSelfEdge_of_rels (rels_enqueueIfNoPending cid 55 _)
    split
    · exact hns
    · rcases url with _ | u
      · exact noSelf_insert cid par "father" cd.confidence true false hns
          (by simpa using hne)
      · apply NoSelfEdge_of_rels (rels_addSource _ u "wikipedia" _)
        exact noSelf_insert cid par "father" cd.confidence true false hns
          (by simpa using hne)

theorem GA_linkChildResolved_noSelf {par cid : Nat} {cd : Candidate} {url : Option String}
    {db1 : DB} (hns : NoSelfEdge db1) :
    NoSelfEdge (GenesisAgent.linkChildResolved par cid cd url db1) := by
  unfold GenesisAgent.linkChildResolved
  split
  · exact hns
  · rename_i hne
    apply NoSelfEdge_of_rels (rels_enqueueIfNoPending cid 55 _)
    have hnoself : NoSelfEdge
        (match findRel db1 cid par "father" with
         | some e => (e.id, updateRelConfidence e.id cd.confidence db1)
         | none => insertRel cid par "father" cd.confidence true false db1).2 := by
      rcases hrel : findRel db1 cid par "father" with _ | e
      · exact noSelf_insert cid par "father" cd.confidence true false hns
          (by simpa using hne)
      · exact noSelf_update e.id cd.confidence hns
    rcases url with _ | u
    · exact hnoself
    · exact NoSelfEdge_of_rels (rels_addSourceDedup _ u "wikipedia" _) hnoself

/-- Claim C10: the writers never create or update a self-referential edge.
When identity resolution returns the subject itself, link_parent and
link_child return without touching the relationships, sources or queue tables;
and every link operation preserves the absence of self-referential rows. -/
theorem c10_no_self_edges (db : DB) :
    (∀ c pd pt url, NoSelfEdge db → NoSelfEdge (ResearchAgent.linkParent c pd pt url db)) ∧
    (∀ c pd pt url, NoSelfEdge db → NoSelfEdge (GenesisAgent.linkParent c pd pt url db)) ∧
    (∀ par cd url, NoSelfEdge db → NoSelfEdge (ResearchAgent.linkChild par cd url db)) ∧
    (∀ par cd url, NoSelfEdge db → NoSelfEdge (GenesisAgent.linkChild par cd url db)) ∧
    (∀ c pd pt url pid,
       (ResearchAgent.findOrCreate pd.name pd.wikidata_id db).1 = some pid → pid = c →
       (ResearchAgent.linkParent c pd pt url db).relationships = db.relationships ∧
       (ResearchAgent.linkParent c pd pt url db).sources = db.sources ∧
       (ResearchAgent.linkParent c pd pt url db).queue = db.queue) ∧
    (∀ c pd pt url pid,
       (GenesisAgent.findOrCreate pd.name pd.wikidata_id db).1 = some pid → pid = c →
       (GenesisAgent.linkParent c pd pt url db).relationships = db.relationships ∧
       (GenesisAgent.linkParent c pd pt url db).sources = db.sources ∧
       (GenesisAgent.linkParent c pd pt url db).queue = db.queue) ∧
    (∀ par cd url cid,
       (ResearchAgent.findOrCreate cd.name cd.wikidata_id db).1 = some cid → cid = par →
       (ResearchAgent.linkChild par cd url db).relationships = db.relationships ∧
       (ResearchAgent.linkChild par cd url db).sources = db.sources ∧
       (ResearchAgent.linkChild par cd url db).queue = db.queue) ∧
    (∀ par cd url cid,
       (GenesisAgent.findOrCreate cd.name cd.wikidata_id db).1 = some cid → cid = par →
       (GenesisAgent.linkChild par cd url db).relationships = db.relationships ∧
       (GenesisAgent.linkChild par cd url db).sources = db.sources ∧
       (GenesisAgent.linkChild par cd url db).queue = db.queue) := by
  refine ⟨?_, ?_, ?_, ?_, ?_, ?_, ?_, ?_⟩
  · intro c pd pt url hns
    rcases hfoc : ResearchAgent.findOrCreate pd.name pd.wikidata_id db with ⟨opid, db1⟩
    have hns1 : NoSelfEdge db1 := by
      refine NoSelfEdge_of_rels ?_ hns
      have h0 := RA_foc_rels pd.name pd.wikidata_id db
      rw [hfoc] at h0
      exact h0
    rcases opid with _ | pid
    · have hL : ResearchAgent.linkParent c pd pt url db = db1 := by
        unfold ResearchAgent.linkParent
        simp only [hfoc]
      rw [hL]
      exact hns1
    · have hL : ResearchAgent.linkParent c pd pt url db
          = ResearchAgent.linkParentResolved c pid pd pt url db1 := by
        unfold ResearchAgent.linkParent
        simp only [hfoc]
      rw [hL]
      unfold ResearchAgent.linkParentResolved
      split
      · exact hns1
      · rename_i hne
        exact RA_upsert_noSelf hns1 (fun hcp => hne (by simp [hcp]))
  · intro c pd pt url hns
    rcases hfoc : GenesisAgent.findOrCreate pd.name pd.wikidata_id db with ⟨opid, db1⟩
    have hns1 : NoSelfEdge db1 := by
      refine NoSelfEdge_of_rels ?_ hns
      have h0 := GA_foc_rels pd.name pd.wikidata_id db
      rw [hfoc] at h0
      exact h0
    rcases opid with _ | pid
    · have hL : GenesisAgent.linkParent c pd pt url db = db1 := by
        unfold GenesisAgent.linkParent
        simp only [hfoc]
      rw [hL]
      exact hns1
    · have hL : GenesisAgent.linkParent c pd pt url db
          = GenesisAgent.linkParentResolved c pid pd pt url db1 := by
        unfold GenesisAgent.linkParent
        simp only [hfoc]
      rw [hL]
      unfold GenesisAgent.linkParentResolved
      split
      · exact hns1
      · rename_i hne
        have hcp : c ≠ pid := fun hcp => hne (by simp [hcp])
        split
        · exact GA_upsert_noSelf hns1 hcp
        · split
          · exact GA_upsert_noSelf (noSelf_demote _ hns1) hcp
          · exact GA_upsert_noSelf hns1 hcp
  · intro par cd url hns
    rcases hfoc : ResearchAgent.findOrCreate cd.name cd.wikidata_id db with ⟨opid, db1⟩
    have hns1 : NoSelfEdge db1 := by
      refine NoSelfEdge_of_rels ?_ hns
      have h0 := RA_foc_rels cd.name cd.wikidata_id db
      rw [hfoc] at h0
      exact h0
    rcases opid with _ | cid
    · have hL : ResearchAgent.linkChild par cd url db = db1 := by
        unfold ResearchAgent.linkChild
        simp only [hfoc]
      rw [hL]
      exact hns1
    · have hL : ResearchAgent.linkChild par cd url db
          = ResearchAgent.linkChildResolved par cid cd url db1 := by
        unfold ResearchAgent.linkChild
        simp only [hfoc]
      rw [hL]
      exact RA_linkChildResolved_noSelf hns1
  · intro par cd url hns
    rcases hfoc : GenesisAgent.findOrCreate cd.name cd.wikidata_id db with ⟨opid, db1⟩
    have hns1 : NoSelfEdge db1 := by
      refine NoSelfEdge_of_rels ?_ hns
      have h0 := GA_foc_rels cd.name cd.wikidata_id db
      rw [hfoc] at h0
      exact h0
    rcases opid with _ | cid
    · have hL : GenesisAgent.linkChild par cd url db = db1 := by
        unfold GenesisAgent.linkChild
        simp only [hfoc]
      rw [hL]
      exact hns1
    · have hL : GenesisAgent.linkChild par cd url db
          = GenesisAgent.linkChildResolved par cid cd url db1 := by
        unfold GenesisAgent.linkChild
        simp only [hfoc]
      rw [hL]
      exact GA_linkChildResolved_noSelf hns1
  · intro c pd pt url pid h1 hpc
    subst hpc
    rw [RA_linkParent_eq pid pt url h1]
    unfold ResearchAgent.linkParentResolved
    rw [if_pos (by simp : (pid == pid) = true)]
    exact ⟨RA_foc_rels pd.name pd.wikidata_id db, RA_foc_sources pd.name pd.wikidata_id db,
           RA_foc_queue pd.name pd.wikidata_id db⟩
  · intro c pd pt url pid h1 hpc
    subst hpc
    rw [GA_linkParent_eq pid pt url h1]
    unfold GenesisAgent.linkParentResolved
    rw [if_pos (by simp : (pid == pid) = true)]
    exact ⟨GA_foc_rels pd.name pd.wikidata_id db, GA_foc_sources pd.name pd.wikidata_id db,
           GA_foc_queue pd.name pd.wikidata_id db⟩
  · intro par cd url cid h1 hcp
    subst hcp
    rw [RA_linkChild_eq cid url h1]
    unfold ResearchAgent.linkChildResolved
    rw [if_pos (by simp : (cid == cid) = true)]
    exact ⟨RA_foc_rels cd.name cd.wikidata_id db, RA_foc_sources cd.name cd.wikidata_id db,
           RA_foc_queue cd.name cd.wikidata_id db⟩
  · intro par cd url cid h1 hcp
    subst hcp
    rw [GA_linkChild_eq cid url h1]
    unfold GenesisAgent.linkChildResolved
    rw [if_pos (by simp : (cid == cid) = true)]
    exact ⟨GA_foc_rels cd.name cd.wikidata_id db, GA_foc_sources cd.name cd.wikidata_id db,
           GA_foc_queue cd.name cd.wikidata_id db⟩

theorem c10_no_self_edges_witness :
    NoSelfEdge (ResearchAgent.linkParent 1 ⟨"Beta", none, 92⟩ "father" none genesisAlphaDB) ∧
    (ResearchAgent.linkParent 1 ⟨"Alpha", none, 92⟩ "father" none
        genesisAlphaDB).relationships = genesisAlphaDB.relationships :=
  ⟨(c10_no_self_edges genesisAlphaDB).1 1 ⟨"Beta", none, 92⟩ "father" none (by decide),
   ((c10_no_self_edges genesisAlphaDB).2.2.2.2.1 1 ⟨"Alpha", none, 92⟩ "father" none 1
      (by decide) rfl).1⟩

theorem genInv_of_persons_eq {dbA dbB : DB} (h : dbA.persons = dbB.persons)
    (hg : GenesisInv dbB) : GenesisInv dbA := by
  intro p hp
  rw [h] at hp
  exact hg p hp

theorem genInv_of_map {dbA dbB : DB} (f : Person → Person)
    (h : dbA.persons = dbB.persons.map f) (hf : ∀ p, genOk p → genOk (f p))
    (hg : GenesisInv dbB) : GenesisInv dbA := by
  intro p hp
  rw [h] at hp
  obtain ⟨q, hq, rfl⟩ := List.mem_map.mp hp
  exact hf q (hg q hq)

theorem genInv_of_append {dbA dbB : DB} {l : List Person}
    (h : dbA.persons = dbB.persons ++ l) (hl : ∀ p ∈ l, genOk p)
    (hg : GenesisInv dbB) : GenesisInv dbA := by
  intro p hp
  rw [h] at hp
  rcases List.mem_append.mp hp with h1 | h2
  · exact hg p h1
  · exact hl p h2

theorem genOk_clearG (p : Person) : genOk (clearG p) := by
  simp [genOk, clearG]

theorem genOk_setG (gc : String) (p : Person) : genOk (setG gc p) := by
  simp [genOk, setG]

theorem genOk_ite_clearG (i : Nat) (p : Person) (h : genOk p) :
    genOk (if (p.id == i) = true then clearG p else p) := by
  by_cases hc : (p.id == i) = true
  · rw [if_pos hc]
    exact genOk_clearG p
  · rw [if_neg hc]
    exact h

theorem genOk_ite_setG (i : Nat) (gc : String) (p : Person) (h : genOk p) :
    genOk (if (p.id == i) = true then setG gc p else p) := by
  by_cases hc : (p.id == i) = true
  · rw [if_pos hc]
    exact genOk_setG gc p
  · rw [if_neg hc]
    exact h

theorem genOk_ite_wid (i : Nat) (w : String) (p : Person) (h : genOk p) :
    genOk (if (p.id == i) = true then { p with wikidata_id := some w } else p) := by
  by_cases hc : (p.id == i) = true
  · rw [if_pos hc]
    simpa [genOk] using h
  · rw [if_neg hc]
    exact h

theorem genOk_ite_byear (i : Nat) (y : Int) (p : Person) (h : genOk p) :
    genOk (if (p.id == i) = true then { p with approx_birth_year := some y } else p) := by
  by_cases hc : (p.id == i) = true
  · rw [if_pos hc]
    simpa [genOk] using h
  · rw [if_neg hc]
    exact h

theorem genOk_ite_res (i : Nat) (p : Person) (h : genOk p) :
    genOk (if (p.id == i) = true then { p with agent_researched := true } else p) := by
  by_cases hc : (p.id == i) = true
  · rw [if_pos hc]
    simpa [genOk] using h
  · rw [if_neg hc]
    exact h

theorem genInv_updatePersonWikidata (i : Nat) (w : String) {db : DB}
    (hg : GenesisInv db) : GenesisInv (updatePersonWikidata i w db) :=
  genInv_of_map _ rfl (genOk_ite_wid i w) hg

theorem genInv_updatePersonBirthYear (i : Nat) (y : Int) {db : DB}
    (hg : GenesisInv db) : GenesisInv (updatePersonBirthYear i y db) :=
  genInv_of_map _ rfl (genOk_ite_byear i y) hg

theorem genInv_setResearched (i : Nat) {db : DB} (hg : GenesisInv db) :
    GenesisInv (setResearched i db) :=
  genInv_of_map _ rfl (genOk_ite_res i) hg

theorem genInv_setGenesis (i : Nat) (gc : String) {db : DB} (hg : GenesisInv db) :
    GenesisInv (setGenesis i gc db) :=
  genInv_of_map _ rfl (genOk_ite_setG i gc) hg

theorem genInv_clearGenesis (i : Nat) {db : DB} (hg : GenesisInv db) :
    GenesisInv (clearGenesis i db) :=
  genInv_of_map _ rfl (genOk_ite_clearG i) hg

theorem genInv_dissolve (c p : Nat) (conf : Rat) {db : DB} (hg : GenesisInv db) :
    GenesisInv (dissolveGenesisIfHigh c p conf db) := by
  unfold dissolveGenesisIfHigh
  split
  · split
    · split
      · exact genInv_of_map _ rfl (genOk_ite_clearG c) hg
      · exact hg
    · exact hg
  · exact hg

theorem genInv_RA_foc (n : String) (w : Option String) {db : DB} (hg : GenesisInv db) :
    GenesisInv (ResearchAgent.findOrCreate n w db).2 := by
  unfold ResearchAgent.findOrCreate
  rcases hby : w.bind (fun u => db.persons.find? (fun q => q.wikidata_id == some u)) with _ | pw
  · rw [hby]
    rcases hname : db.persons.find? (fun q => lowEq q.name n) with _ | pn
    · rw [hname]
      dsimp only
      exact genInv_of_append rfl (by intro p hp; rw [List.mem_singleton] at hp; subst hp; simp [genOk]) hg
    · rw [hname]
      dsimp only
      rcases w with _ | u
      · exact hg
      · exact genInv_of_map _ rfl (genOk_ite_wid pn.id u) hg
  · rw [hby]
    exact hg

theorem genInv_GA_foc (n : String) (w : Option String) {db : DB} (hg : GenesisInv db) :
    GenesisInv (GenesisAgent.findOrCreate n w db).2 := by
  unfold GenesisAgent.findOrCreate
  rcases hby : w.bind (fun u => db.persons.find? (fun q => q.wikidata_id == some u)) with _ | pw
  · rw [hby]
    rcases hname : db.persons.find? (fun q => lowEq q.name n) with _ | pn
    · rw [hname]
      dsimp only
      exact genInv_of_append rfl (by intro p hp; rw [List.mem_singleton] at hp; subst hp; simp [genOk]) hg
    · rw [hname]
      dsimp only
      rcases w with _ | u
      · exact hg
      · exact genInv_of_map _ rfl (genOk_ite_wid pn.id u) hg
  · rw [hby]
    exact hg

theorem genInv_RA_upsert (c pid : Nat) (pd : Candidate) (pt : String) (url : Option String)
    (prim : Bool) {db1 : DB} (hg : GenesisInv db1) :
    GenesisInv (ResearchAgent.linkParentUpsert c pid pd pt url prim db1) := by
  have main : ∀ dbw : DB, dbw.persons = db1.persons →
      GenesisInv (enqueueIfNoPending pid 75 (dissolveGenesisIfHigh c pid pd.confidence dbw)) := by
    intro dbw hp
    exact genInv_of_persons_eq (persons_enqueueIfNoPending pid 75 _)
      (genInv_dissolve c pid pd.confidence (genInv_of_persons_eq hp hg))
  unfold ResearchAgent.linkParentUpsert
  rcases url with _ | u
  · rcases hrel : findRel db1 c pid pt with _ | e <;> dsimp only <;>
      exact main _ (by simp)
  · rcases hrel : findRel db1 c pid pt with _ | e <;> dsimp only <;>
      exact main _ (by simp)

theorem genInv_GA_upsert (c pid : Nat) (pd : Candidate) (pt : String) (url : Option String)
    (prim : Bool) {db1 : DB} (hg : GenesisInv db1) :
    GenesisInv (GenesisAgent.linkParentUpsert c pid pd pt url prim db1) := by
  have main : ∀ dbw : DB, dbw.persons = db1.persons →
      GenesisInv (enqueueIfNoPending pid 75 (dissolveGenesisIfHigh c pid pd.confidence dbw)) := by
    intro dbw hp
    exact genInv_of_persons_eq (persons_enqueueIfNoPending pid 75 _)
      (genInv_dissolve c pid pd.confidence (genInv_of_persons_eq hp hg))
  unfold GenesisAgent.linkParentUpsert
  rcases url with _ | u
  · rcases hrel : findRel db1 c pid pt with _ | e <;> dsimp only <;>
      exact main _ (by simp)
  · rcases hrel : findRel db1 c pid pt with _ | e <;> dsimp only <;>
      exact main _ (by simp)

theorem genInv_RA_linkParent (c : Nat) (pd : Candidate) (pt : String) (url : Option String)
    {db : DB} (hg : GenesisInv db) :
    GenesisInv (ResearchAgent.linkParent c pd pt url db) := by
  rcases hfoc : ResearchAgent.findOrCreate pd.name pd.wikidata_id db with ⟨opid, db1⟩
  have hg1 : GenesisInv db1 := by
    have h0 := genInv_RA_foc pd.name pd.wikidata_id hg
    rw [hfoc] at h0
    exact h0
  rcases opid with _ | pid
  · have hL : ResearchAgent.linkParent c pd pt url db = db1 := by
      unfold ResearchAgent.linkParent
      simp only [hfoc]
    rw [hL]
    exact hg1
  · have hL : ResearchAgent.linkParent c pd pt url db
        = ResearchAgent.linkParentResolved c pid pd pt url db1 := by
      unfold ResearchAgent.linkParent
      simp only [hfoc]
    rw [hL]
    unfold ResearchAgent.linkParentResolved
    split
    · exact hg1
    · exact genInv_RA_upsert c pid pd pt url _ hg1

theorem genInv_GA_linkParent (c : Nat) (pd : Candidate) (pt : String) (url : Option String)
    {db : DB} (hg : GenesisInv db) :
    GenesisInv (GenesisAgent.linkParent c pd pt url db) := by
  rcases hfoc : GenesisAgent.findOrCreate pd.name pd.wikidata_id db with ⟨opid, db1⟩
  have hg1 : GenesisInv db1 := by
    have h0 := genInv_GA_foc pd.name pd.wikidata_id hg
    rw [hfoc] at h0
    exact h0
  rcases opid with _ | pid
  · have hL : GenesisAgent.linkParent c pd pt url db = db1 := by
      unfold GenesisAgent.linkParent
      simp only [hfoc]
    rw [hL]
    exact hg1
  · have hL : GenesisAgent.linkParent c pd pt url db
        = GenesisAgent.linkParentResolved c pid pd pt url db1 := by
      unfold GenesisAgent.linkParent
      simp only [hfoc]
    rw [hL]
    unfold GenesisAgent.linkParentResolved
    split
    · exact hg1
    · split
      · exact genInv_GA_upsert c pid pd pt url _ hg1
      · split
        · exact genInv_GA_upsert c pid pd pt url _
            (genInv_of_persons_eq (persons_demoteRel _ _) hg1)
        · exact genInv_GA_upsert c pid pd pt url _ hg1

theorem genInv_RA_linkChild (par : Nat) (cd : Candidate) (url : Option String)
    {db : DB} (hg : GenesisInv db) :
    GenesisInv (ResearchAgent.linkChild par cd url db) := by
  rcases hfoc : ResearchAgent.findOrCreate cd.name cd.wikidata_id db with ⟨opid, db1⟩
  have hg1 : GenesisInv db1 := by
    have h0 := genInv_RA_foc cd.name cd.wikidata_id hg
    rw [hfoc] at h0
    exact h0
  rcases opid with _ | cid
  · have hL : ResearchAgent.linkChild par cd url db = db1 := by
      unfold ResearchAgent.linkChild
      simp only [hfoc]
    rw [hL]
    exact hg1
  · have hL : ResearchAgent.linkChild par cd url db
        = ResearchAgent.linkChildResolved par cid cd url db1 := by
      unfold ResearchAgent.linkChild
      simp only [hfoc]
    rw [hL]
    exact genInv_of_persons_eq (RA_linkChildResolved_persons par cid cd url db1) hg1

theorem genInv_GA_linkChild (par : Nat) (cd : Candidate) (url : Option String)
    {db : DB} (hg : GenesisInv db) :
    GenesisInv (GenesisAgent.linkChild par cd url db) := by
  rcases hfoc : GenesisAgent.findOrCreate cd.name cd.wikidata_id db with ⟨opid, db1⟩
  have hg1 : GenesisInv db1 := by
    have h0 := genInv_GA_foc cd.name cd.wikidata_id hg
    rw [hfoc] at h0
    exact h0
  rcases opid with _ | cid
  · have hL : GenesisAgent.linkChild par cd url db = db1 := by
      unfold GenesisAgent.linkChild
      simp only [hfoc]
    rw [hL]
    exact hg1
  · have hL : GenesisAgent.linkChild par cd url db
        = GenesisAgent.linkChildResolved par cid cd url db1 := by
      unfold GenesisAgent.linkChild
      simp only [hfoc]
    rw [hL]
    exact genInv_of_persons_eq (GA_linkChildResolved_persons par cid cd url db1) hg1

theorem genInv_saveScalars (pid : Nat) (wid : Option String) (byear : Option Int) {db : DB}
    (hg : GenesisInv db) : GenesisInv (ResearchAgent.saveScalars pid wid byear db) := by
  rcases wid with _ | w <;> rcases byear with _ | y <;>
    dsimp only [ResearchAgent.saveScalars]
  · exact hg
  · exact genInv_updatePersonBirthYear pid y hg
  · exact genInv_updatePersonWikidata pid w hg
  · exact genInv_updatePersonBirthYear pid y (genInv_updatePersonWikidata pid w hg)

theorem genInv_failGenesisCheck (pid : Nat) {db1 : DB} (hg : GenesisInv db1) :
    GenesisInv (ResearchAgent.failGenesisCheck pid db1) := by
  unfold ResearchAgent.failGenesisCheck
  split
  · split
    · split
      · exact hg
      · exact genInv_setGenesis pid _ hg
    · exact hg
  · exact hg

theorem genInv_tickNoDiscovery (jid pid a : Nat) {db : DB} (hg : GenesisInv db) :
    GenesisInv (ResearchAgent.tickNoDiscovery jid pid a db) := by
  unfold ResearchAgent.tickNoDiscovery
  split
  · exact genInv_failGenesisCheck pid
      (genInv_of_persons_eq (persons_setJobStatusAttempts jid "failed" (a + 1) db) hg)
  · exact genInv_of_persons_eq (persons_setJobStatusAttempts jid "pending" (a + 1) db) hg

theorem genInv_foldl_enq30 (l : List Person) : ∀ db : DB, GenesisInv db →
    GenesisInv (l.foldl (fun acc p => enqueueIfNoPending p.id 30 acc) db) := by
  induction l with
  | nil => intro db hg; exact hg
  | cons x xs ih =>
      intro db hg
      rw [List.foldl_cons]
      exact ih _ (genInv_of_persons_eq (persons_enqueueIfNoPending x.id 30 db) hg)

theorem genInv_foldl_enqJob30 (l : List Person) : ∀ db : DB, GenesisInv db →
    GenesisInv (l.foldl (fun acc p => enqueueJob p.id 30 acc) db) := by
  induction l with
  | nil => intro db hg; exact hg
  | cons x xs ih =>
      intro db hg
      rw [List.foldl_cons]
      exact ih _ (genInv_of_persons_eq (persons_enqueueJob x.id 30 db) hg)

theorem genInv_RA_refill (i : Nat) {db : DB} (hg : GenesisInv db) :
    GenesisInv (ResearchAgent.refillQueue db i).1 := by
  unfold ResearchAgent.refillQueue
  split
  · exact genInv_of_persons_eq (persons_resetFailed db) hg
  · split
    · dsimp only
      rcases hf : db.persons.find?
          (fun p => lowEq p.name (ResearchAgent.EXPANSION_SEEDS.getD i ("", "")).1) with _ | p
      · rw [hf]
        dsimp only
        refine genInv_of_persons_eq (persons_enqueueJob db.next_person_id 85 _) ?_
        exact genInv_of_append rfl
          (by intro q hq; rw [List.mem_singleton] at hq; subst hq; simp [genOk]) hg
      · rw [hf]
        dsimp only
        split
        · exact hg
        · exact genInv_of_persons_eq (persons_enqueueJob p.id 85 db) hg
    · dsimp only
      split
      · exact hg
      · exact genInv_foldl_enq30 _ db hg

theorem genInv_GA_refill (i : Nat) {db : DB} (hg : GenesisInv db) :
    GenesisInv (GenesisAgent.refillQueue db i).1 := by
  unfold GenesisAgent.refillQueue
  split
  · exact genInv_of_persons_eq (persons_resetFailed db) hg
  · split
    · dsimp only
      rcases hf : db.persons.find?
          (fun p => lowEq p.name (GenesisAgent.EXPANSION_SEEDS.getD i ("", "")).1) with _ | p
      · rw [hf]
        dsimp only
        refine genInv_of_persons_eq (persons_enqueueJob db.next_person_id 85 _) ?_
        exact genInv_of_append rfl
          (by intro q hq; rw [List.mem_singleton] at hq; subst hq; simp [genOk]) hg
      · rw [hf]
        dsimp only
        exact genInv_of_persons_eq (persons_enqueueJob p.id 85 db) hg
    · dsimp only
      split
      · exact hg
      · exact genInv_foldl_enqJob30 _ db hg

theorem genInv_seedOne {db : DB} (hg : GenesisInv db) (seed : String × String) :
    GenesisInv (GenesisAgent.seedOne db seed) := by
  unfold GenesisAgent.seedOne
  rcases hf : db.persons.find? (fun p => lowEq p.name seed.1) with _ | p
  · rw [hf]
    dsimp only
    refine genInv_of_persons_eq (persons_enqueueJob db.next_person_id 90 _) ?_
    exact genInv_of_append rfl
      (by intro q hq; rw [List.mem_singleton] at hq; subst hq; simp [genOk]) hg
  · rw [hf]
    exact hg

theorem genInv_foldl_seedOne (l : List (String × String)) : ∀ db : DB, GenesisInv db →
    GenesisInv (l.foldl GenesisAgent.seedOne db) := by
  induction l with
  | nil => intro db hg; exact hg
  | cons x xs ih =>
      intro db hg
      rw [List.foldl_cons]
      exact ih _ (genInv_seedOne hg x)

theorem genInv_seedInit {db : DB} (hg : GenesisInv db) :
    GenesisInv (GenesisAgent.seedInitialPersons db) :=
  genInv_foldl_seedOne GenesisAgent.SEEDS db hg

theorem genInv_fixFold (l : List Person) : ∀ db : DB, GenesisInv db →
    GenesisInv (l.foldl
      (fun acc p =>
        let acc1 := clearGenesis p.id acc
        { acc1 with logs := acc1.logs ++
            [{ person_id := p.id, action := "fixed",
               detail := "Removed incorrect genesis flag" }] })
      db) := by
  induction l with
  | nil => intro db hg; exact hg
  | cons x xs ih =>
      intro db hg
      rw [List.foldl_cons]
      exact ih _ (genInv_of_map _ rfl (genOk_ite_clearG x.id) hg)

theorem genInv_fixWrong {db : DB} (hg : GenesisInv db) :
    GenesisInv (CategoryAgent.fixWrongGenesis db) := by
  unfold CategoryAgent.fixWrongGenesis
  exact genInv_fixFold _ db hg

theorem genInv_step {s t : Sys} (hst : Step s t) (hg : GenesisInv s.db) :
    GenesisInv t.db := by
  cases hst with
  | raFindOrCreate name wid => exact genInv_RA_foc name wid hg
  | raLinkParent c pd pt url h => exact genInv_RA_linkParent c pd pt url hg
  | raLinkChild par cd url h => exact genInv_RA_linkChild par cd url hg
  | saveScalars pid wid byear => exact genInv_saveScalars pid wid byear hg
  | setRes pid => exact genInv_setResearched pid hg
  | jobStatus jid st => exact genInv_of_persons_eq (persons_markJob jid st _) hg
  | raTickNoDiscovery jid pid a h => exact genInv_tickNoDiscovery jid pid a hg
  | raRefill h => exact genInv_RA_refill _ hg
  | gaFindOrCreate name wid => exact genInv_GA_foc name wid hg
  | gaLinkParent c pd pt url h => exact genInv_GA_linkParent c pd pt url hg
  | gaLinkChild par cd url h => exact genInv_GA_linkChild par cd url hg
  | gaSeed =>
      dsimp only
      exact genInv_seedInit hg
  | gaRefill h =>
      dsimp only
      exact genInv_GA_refill _ hg
  | caFixGenesis => exact genInv_fixWrong hg

/-- C7: in every store reachable from a fresh database by the embedded agent
write paths (identity resolution, edge upserts with genesis dissolution,
scalar saves, job transitions, the failed-tick genesis assignment, queue
refills, seeding and the category-agent repair), a person has is_genesis set
exactly when a genesis_code is stored: creations write the pair consistently,
dissolution and repair clear both together, and the failed-tick assignment
sets both together. -/
theorem c7_genesis_code_iff : ∀ s : Sys, Reachable s → GenesisInv s.db := by
  intro s hs
  induction hs with
  | init => decide
  | step hr hst ih => exact genInv_step hst ih

/-- Witness for C7: the invariant holds in the concrete state reached from the
fresh store by one ResearchAgent refill (which creates the Noah seed person). -/
theorem c7_genesis_code_iff_witness : GenesisInv seedNoahState.db :=
  c7_genesis_code_iff seedNoahState
    (Reachable.step Reachable.init (Step.raRefill initSys (by decide)))

/-! Queue accounting lemmas for the refill-policy claim. -/

theorem lowEq_refl (s : String) : lowEq s s = true := by
  simp [lowEq]

theorem find?_append_of_none {α : Type} {l1 : List α} (l2 : List α) {p : α → Bool}
    (h : l1.find? p = none) : (l1 ++ l2).find? p = l2.find? p := by
  rw [List.find?_append, h]; rfl

theorem hasPending_false_of_zero (db : DB) (hq : pendingCount db = 0) (pid : Nat) :
    hasPendingJob pid db = false := by
  rw [Bool.eq_false_iff]
  intro hcon
  unfold hasPendingJob at hcon
  rw [List.any_eq_true] at hcon
  obtain ⟨j, hj, hjp⟩ := hcon
  have h2 : j.person_id = pid ∧ j.status = "pending" := by simpa using hjp
  have h3 : (fun k : QueueJob => k.status == "pending") j = true := by
    simp [h2.2]
  unfold pendingCount at hq
  exact absurd h3 ((List.countP_eq_zero.mp hq) j hj)

theorem hasPending_enqueue_self (pid : Nat) (prio : Int) (db : DB) :
    hasPendingJob pid (enqueueJob pid prio db) = true := by
  simp [hasPendingJob, enqueueJob]

theorem hasPending_enqueue_mono (q pid : Nat) (prio : Int) (db : DB)
    (h : hasPendingJob q db = true) : hasPendingJob q (enqueueJob pid prio db) = true := by
  unfold hasPendingJob at h ⊢
  unfold enqueueJob
  dsimp only
  rw [List.any_append, h]
  rfl

theorem hasPending_ifNoPending_self (pid : Nat) (prio : Int) (db : DB) :
    hasPendingJob pid (enqueueIfNoPending pid prio db) = true := by
  unfold enqueueIfNoPending
  split
  · rename_i h
    exact h
  · exact hasPending_enqueue_self pid prio db

theorem hasPending_ifNoPending_mono (q pid : Nat) (prio : Int) (db : DB)
    (h : hasPendingJob q db = true) :
    hasPendingJob q (enqueueIfNoPending pid prio db) = true := by
  unfold enqueueIfNoPending
  split
  · exact h
  · exact hasPending_enqueue_mono q pid prio db h

theorem foldl30_persons (l : List Person) : ∀ db : DB,
    (l.foldl (fun acc p => enqueueIfNoPending p.id 30 acc) db).persons = db.persons := by
  induction l with
  | nil => intro db; rfl
  | cons x xs ih =>
      intro db
      rw [List.foldl_cons, ih]
      exact persons_enqueueIfNoPending x.id 30 db

theorem foldl30_mono (l : List Person) : ∀ (db : DB) (q : Nat),
    hasPendingJob q db = true →
    hasPendingJob q (l.foldl (fun acc p => enqueueIfNoPending p.id 30 acc) db) = true := by
  induction l with
  | nil => intro db q h; exact h
  | cons x xs ih =>
      intro db q h
      rw [List.foldl_cons]
      exact ih _ q (hasPending_ifNoPending_mono q x.id 30 db h)

theorem foldl30_pending (l : List Person) : ∀ db : DB, ∀ p ∈ l,
    hasPendingJob p.id (l.foldl (fun acc q => enqueueIfNoPending q.id 30 acc) db) = true := by
  induction l with
  | nil => intro db p hp; cases hp
  | cons x xs ih =>
      intro db p hp
      rw [List.foldl_cons]
      rcases List.mem_cons.mp hp with h1 | h2
      · subst h1
        exact foldl30_mono xs _ p.id (hasPending_ifNoPending_self p.id 30 db)
      · exact ih _ p h2

theorem foldlJ30_persons (l : List Person) : ∀ db : DB,
    (l.foldl (fun acc p => enqueueJob p.id 30 acc) db).persons = db.persons := by
  induction l with
  | nil => intro db; rfl
  | cons x xs ih =>
      intro db
      rw [List.foldl_cons, ih]
      exact persons_enqueueJob x.id 30 db

theorem foldlJ30_mono (l : List Person) : ∀ (db : DB) (q : Nat),
    hasPendingJob q db = true →
    hasPendingJob q (l.foldl (fun acc p => enqueueJob p.id 30 acc) db) = true := by
  induction l with
  | nil => intro db q h; exact h
  | cons x xs ih =>
      intro db q h
      rw [List.foldl_cons]
      exact ih _ q (hasPending_enqueue_mono q x.id 30 db h)

theorem foldlJ30_pending (l : List Person) : ∀ db : DB, ∀ p ∈ l,
    hasPendingJob p.id (l.foldl (fun acc q => enqueueJob q.id 30 acc) db) = true := by
  induction l with
  | nil => intro db p hp; cases hp
  | cons x xs ih =>
      intro db p hp
      rw [List.foldl_cons]
      rcases List.mem_cons.mp hp with h1 | h2
      · subst h1
        exact foldlJ30_mono xs _ p.id (hasPending_enqueue_self p.id 30 db)
      · exact ih _ p h2

theorem resetFailed_queue_len (db : DB) :
    (resetFailed db).queue.length = db.queue.length := by
  simp [resetFailed]

theorem resetFailed_noFailed (db : DB) : failedCount (resetFailed db) = 0 := by
  unfold failedCount resetFailed
  dsimp only
  apply List.countP_eq_zero.mpr
  intro j hj
  obtain ⟨k, hk, rfl⟩ := List.mem_map.mp hj
  by_cases hkf : (k.status == "failed") = true
  · rw [if_pos hkf]
    simp
  · rw [if_neg hkf]
    exact hkf

theorem resetFailed_pendingCount (db : DB) :
    pendingCount (resetFailed db) = pendingCount db + failedCount db := by
  unfold pendingCount failedCount resetFailed
  dsimp only
  generalize db.queue = l
  induction l with
  | nil => rfl
  | cons x xs ih =>
      rw [List.map_cons, List.countP_cons, List.countP_cons, List.countP_cons, ih]
      by_cases hx : (x.status == "failed") = true
      · have hxe : x.status = "failed" := by simpa using hx
        rw [if_pos hx]
        simp [hxe]
        omega
      · rw [if_neg hx]
        have hx2 : (x.status == "failed") = false := by
          rw [Bool.eq_false_iff]; exact hx
        simp [hx2]
        omega

theorem resetFailed_mem (db : DB) : ∀ j ∈ db.queue, j.status = "failed" →
    ({ j with status := "pending", attempts := 0 } : QueueJob) ∈ (resetFailed db).queue := by
  intro j hj hjf
  unfold resetFailed
  dsimp only
  refine List.mem_map.mpr ⟨j, hj, ?_⟩
  simp [hjf]

theorem find?_append_singleton {α : Type} {l : List α} {p : α → Bool} {a : α}
    (h : l.find? p = none) (ha : p a = true) : (l ++ [a]).find? p = some a := by
  rw [find?_append_of_none _ h]
  simp [List.find?_cons, ha]

/-- C9: one refill step on an empty work queue follows the documented
priority order, for both embedded refill variants. (1) With failed jobs
present, every failed job is reset to pending with attempts cleared, nothing
else is written (same row count, persons untouched, index unchanged). (2)
Otherwise, with expansion seeds unconsumed, the index advances by one, the
named seed person exists afterwards and carries a pending job at priority 85.
(3) Otherwise, with unresearched persons present, each of the up-to-20
selected persons carries a pending job afterwards, persons and index
untouched. (4) Otherwise the store is returned unchanged and the index resets
to zero, so the seed list replays and the exploration cycle never
terminates. -/
theorem c9_refill_policy (db : DB) (i : Nat) (hq : pendingCount db = 0) :
    (0 < failedCount db →
      ResearchAgent.refillQueue db i = (resetFailed db, i) ∧
      GenesisAgent.refillQueue db i = (resetFailed db, i) ∧
      (resetFailed db).persons = db.persons ∧
      (resetFailed db).queue.length = db.queue.length ∧
      failedCount (resetFailed db) = 0 ∧
      pendingCount (resetFailed db) = pendingCount db + failedCount db ∧
      ∀ j ∈ db.queue, j.status = "failed" →
        ({ j with status := "pending", attempts := 0 } : QueueJob) ∈ (resetFailed db).queue) ∧
    (failedCount db = 0 → i < ResearchAgent.EXPANSION_SEEDS.length →
      (ResearchAgent.refillQueue db i).2 = i + 1 ∧
      ∃ p, (ResearchAgent.refillQueue db i).1.persons.find?
            (fun q => lowEq q.name (ResearchAgent.EXPANSION_SEEDS.getD i ("", "")).1)
          = some p ∧
        ∃ j ∈ (ResearchAgent.refillQueue db i).1.queue,
          j.person_id = p.id ∧ j.status = "pending" ∧ j.priority = 85) ∧
    (failedCount db = 0 → i < GenesisAgent.EXPANSION_SEEDS.length →
      (GenesisAgent.refillQueue db i).2 = i + 1 ∧
      ∃ p, (GenesisAgent.refillQueue db i).1.persons.find?
            (fun q => lowEq q.name (GenesisAgent.EXPANSION_SEEDS.getD i ("", "")).1)
          = some p ∧
        ∃ j ∈ (GenesisAgent.refillQueue db i).1.queue,
          j.person_id = p.id ∧ j.status = "pending" ∧ j.priority = 85) ∧
    (failedCount db = 0 → ¬ i < ResearchAgent.EXPANSION_SEEDS.length →
      (db.persons.filter (fun p => !p.agent_researched && p.ptype != "genesis")).take 20 ≠ [] →
      (ResearchAgent.refillQueue db i).2 = i ∧
      (ResearchAgent.refillQueue db i).1.persons = db.persons ∧
      ∀ p ∈ (db.persons.filter (fun p => !p.agent_researched && p.ptype != "genesis")).take 20,
        hasPendingJob p.id (ResearchAgent.refillQueue db i).1 = true) ∧
    (failedCount db = 0 → ¬ i < GenesisAgent.EXPANSION_SEEDS.length →
      (db.persons.filter (fun p => !p.agent_researched && p.ptype != "genesis")).take 20 ≠ [] →
      (GenesisAgent.refillQueue db i).2 = i ∧
      (GenesisAgent.refillQueue db i).1.persons = db.persons ∧
      ∀ p ∈ (db.persons.filter (fun p => !p.agent_researched && p.ptype != "genesis")).take 20,
        hasPendingJob p.id (GenesisAgent.refillQueue db i).1 = true) ∧
    (failedCount db = 0 → ¬ i < ResearchAgent.EXPANSION_SEEDS.length →
      (db.persons.filter (fun p => !p.agent_researched && p.ptype != "genesis")).take 20 = [] →
      ResearchAgent.refillQueue db i = (db, 0)) ∧
    (failedCount db = 0 → ¬ i < GenesisAgent.EXPANSION_SEEDS.length →
      (db.persons.filter (fun p => !p.agent_researched && p.ptype != "genesis")).take 20 = [] →
      GenesisAgent.refillQueue db i = (db, 0)) := by
  refine ⟨?_, ?_, ?_, ?_, ?_, ?_, ?_⟩
  · intro hf
    refine ⟨?_, ?_, rfl, resetFailed_queue_len db, resetFailed_noFailed db,
      resetFailed_pendingCount db, resetFailed_mem db⟩
    · unfold ResearchAgent.refillQueue
      rw [if_pos hf]
    · unfold GenesisAgent.refillQueue
      rw [if_pos hf]
  · intro h0 hlt
    have hnf : ¬ 0 < failedCount db := by omega
    unfold ResearchAgent.refillQueue
    rw [if_neg hnf, if_pos hlt]
    dsimp only
    rcases hfind : db.persons.find?
        (fun q => lowEq q.name (ResearchAgent.EXPANSION_SEEDS.getD i ("", "")).1) with _ | p
    · rw [hfind]
      dsimp only
      refine ⟨rfl, _, find?_append_singleton hfind (lowEq_refl _), ?_⟩
      refine ⟨{ id := db.next_job_id, person_id := db.next_person_id, direction := "both",
                priority := 85, status := "pending", attempts := 0,
                created_at := db.next_job_id }, ?_, rfl, rfl, rfl⟩
      simp only [enqueueJob]
      exact List.mem_append_right _ (List.mem_singleton.mpr rfl)
    · rw [hfind]
      dsimp only
      have hhp : hasPendingJob p.id db = false := hasPending_false_of_zero db hq p.id
      rw [if_neg (by simp [hhp])]
      refine ⟨rfl, p, hfind, ?_⟩
      refine ⟨{ id := db.next_job_id, person_id := p.id, direction := "both",
                priority := 85, status := "pending", attempts := 0,
                created_at := db.next_job_id }, ?_, rfl, rfl, rfl⟩
      simp only [enqueueJob]
      exact List.mem_append_right _ (List.mem_singleton.mpr rfl)
  · intro h0 hlt
    have hnf : ¬ 0 < failedCount db := by omega
    unfold GenesisAgent.refillQueue
    rw [if_neg hnf, if_pos hlt]
    dsimp only
    rcases hfind : db.persons.find?
        (fun q => lowEq q.name (GenesisAgent.EXPANSION_SEEDS.getD i ("", "")).1) with _ | p
    · rw [hfind]
      dsimp only
      refine ⟨rfl, _, find?_append_singleton hfind (lowEq_refl _), ?_⟩
      refine ⟨{ id := db.next_job_id, person_id := db.next_person_id, direction := "both",
                priority := 85, status := "pending", attempts := 0,
                created_at := db.next_job_id }, ?_, rfl, rfl, rfl⟩
      simp only [enqueueJob]
      exact List.mem_append_right _ (List.mem_singleton.mpr rfl)
    · rw [hfind]
      dsimp only
      refine ⟨rfl, p, hfind, ?_⟩
      refine ⟨{ id := db.next_job_id, person_id := p.id, direction := "both",
                priority := 85, status := "pending", attempts := 0,
                created_at := db.next_job_id }, ?_, rfl, rfl, rfl⟩
      simp only [enqueueJob]
      exact List.mem_append_right _ (List.mem_singleton.mpr rfl)
  · intro h0 hge hne
    have hnf : ¬ 0 < failedCount db := by omega
    unfold ResearchAgent.refillQueue
    rw [if_neg hnf, if_neg hge]
    dsimp only
    rw [if_neg (fun hC => hne (List.isEmpty_iff.mp hC))]
    exact ⟨rfl, foldl30_persons _ db, fun p hp => foldl30_pending _ db p hp⟩
  · intro h0 hge hne
    have hnf : ¬ 0 < failedCount db := by omega
    unfold GenesisAgent.refillQueue
    rw [if_neg hnf, if_neg hge]
    dsimp only
    rw [if_neg (fun hC => hne (List.isEmpty_iff.mp hC))]
    exact ⟨rfl, foldlJ30_persons _ db, fun p hp => foldlJ30_pending _ db p hp⟩
  · intro h0 hge hemp
    have hnf : ¬ 0 < failedCount db := by omega
    unfold ResearchAgent.refillQueue
    rw [if_neg hnf, if_neg hge]
    dsimp only
    rw [if_pos (by rw [hemp]; rfl)]
  · intro h0 hge hemp
    have hnf : ¬ 0 < failedCount db := by omega
    unfold GenesisAgent.refillQueue
    rw [if_neg hnf, if_neg hge]
    dsimp only
    rw [if_pos (by rw [hemp]; rfl)]

/-- Witness for C9: on the fresh empty store with the expansion index past
both seed lists, one refill step of either variant returns the store unchanged
and resets the index to zero. -/
theorem c9_refill_policy_witness :
    ResearchAgent.refillQueue initSys.db 100 = (initSys.db, 0) ∧
    GenesisAgent.refillQueue initSys.db 100 = (initSys.db, 0) :=
  ⟨(c9_refill_policy initSys.db 100 (by decide)).2.2.2.2.2.1
      (by decide) (by decide) (by decide),
   (c9_refill_policy initSys.db 100 (by decide)).2.2.2.2.2.2
      (by decide) (by decide) (by decide)⟩
